import Mathlib

/-!
Verification development for the Forms Analyzer NIGO pipeline
(`form_analyzer.py`).  The analysis core is shallowly embedded over the
document-access facts the decoding layer supplies (raw text, metadata,
widget and graphics facts).  Python strings are `List Char`, Python ints
are `Nat`/`Int`, Python floats are `ℚ`, regular-expression matching is a
small backtracking engine over a pattern AST, fallible steps are explicit
`Except`/`Option` values.
-/

set_option maxHeartbeats 1000000

namespace FormsAnalyzer

/-- Python strings are modelled as lists of characters. -/
abbrev Str := List Char

/-- Coerce a Lean string literal into the `Str` model. -/
def str (s : String) : Str := s.data

/-- The apostrophe character, built from its code point. -/
def apos : Char := Char.ofNat 39

/-- Singleton apostrophe string. -/
def aposS : Str := [apos]

/-- ASCII model of the Python whitespace class (matching the regex class
backslash-s and the default of `str.strip`). -/
def isWsC (c : Char) : Bool :=
  c == ' ' || c == '\t' || c == '\n' || c == '\r' || c == Char.ofNat 11 || c == Char.ofNat 12

/-- ASCII model of the regex word class: letters, digits, underscore. -/
def isWordC (c : Char) : Bool := c.isAlphanum || c == '_'

/-- ASCII uppercase test (mirrors `Char.isUpper`). -/
def isUpperC (c : Char) : Bool := 65 ≤ c.toNat && c.toNat ≤ 90

/-- ASCII model of Python `str.lower` applied to one character. -/
def toLowerC (c : Char) : Char :=
  if 65 ≤ c.toNat ∧ c.toNat ≤ 90 then Char.ofNat (c.toNat + 32) else c

/-- ASCII model of Python `str.upper` applied to one character. -/
def toUpperC (c : Char) : Char :=
  if 97 ≤ c.toNat ∧ c.toNat ≤ 122 then Char.ofNat (c.toNat - 32) else c

/-- Python `str.lower`. -/
def pyLower (s : Str) : Str := s.map toLowerC

/-- Python `str.upper`. -/
def pyUpper (s : Str) : Str := s.map toUpperC

/-- Python `str.strip()` (whitespace from both ends). -/
def pyStrip (s : Str) : Str :=
  ((s.dropWhile isWsC).reverse.dropWhile isWsC).reverse

/-- Does `hay` start with `needle`?  (List-level `startswith`.) -/
def startsList : Str → Str → Bool
  | _, [] => true
  | [], _ :: _ => false
  | h :: hs, n :: ns => h == n && startsList hs ns

/-- Python `needle in hay` substring test. -/
def containsStr (hay needle : Str) : Bool :=
  match hay with
  | [] => needle == []
  | _ :: rest => startsList hay needle || containsStr rest needle

/-- Python string slice `s[a:b]`. -/
def pySlice (s : Str) (a b : Nat) : Str := (s.drop a).take (b - a)

/-- Insert into a strictly sorted list, skipping duplicates (used to model
`sorted(set(...))`; the order is the lexicographic code-point order on
character lists, which is Python's string order). -/
def insSorted (x : Str) : List Str → List Str
  | [] => [x]
  | y :: ys =>
    if x < y then x :: y :: ys
    else if x = y then y :: ys
    else y :: insSorted x ys

/-- `sorted(set(l))`: fold all elements into a sorted duplicate-free list. -/
def sortedSet (l : List Str) : List Str := l.foldl (fun acc x => insSorted x acc) []

/-- Python `int()` truncation toward zero on a rational. -/
def pyTrunc (q : ℚ) : ℤ := if 0 ≤ q then ⌊q⌋ else -⌊-q⌋

/-- Round-half-even to an integer (Python `round`). -/
def rndHalfEven (q : ℚ) : ℤ :=
  let f := ⌊q⌋
  let r := q - (f : ℚ)
  if r < 1/2 then f
  else if 1/2 < r then f + 1
  else if f % 2 = 0 then f else f + 1

/-- Python `round(x, 2)` modelled over rationals. -/
def round2 (q : ℚ) : ℚ := (rndHalfEven (q * 100) : ℚ) / 100

/-- Python `"  " -> " "` replacement: one left-to-right pass replacing
non-overlapping double spaces. -/
def replaceDblSpace : Str → Str
  | [] => []
  | ' ' :: ' ' :: rest => ' ' :: replaceDblSpace rest
  | c :: rest => c :: replaceDblSpace rest

/-- Python `"sep".join(parts)`. -/
def joinWith (sep : Str) : List Str → Str
  | [] => []
  | [x] => x
  | x :: xs => x ++ sep ++ joinWith sep xs

/-- Python `str.splitlines`-ish split on a newline character. -/
def splitLinesAux (cur : Str) : Str → List Str
  | [] => [cur.reverse]
  | '\n' :: rest => cur.reverse :: splitLinesAux [] rest
  | c :: rest => splitLinesAux (c :: cur) rest

/-- Split a string on newline characters. -/
def splitLines (s : Str) : List Str := splitLinesAux [] s

/-! ### A small backtracking regex engine

The detectors of the analyzer are driven by `re` patterns.  They are
embedded as data in the following AST and matched with Python semantics:
leftmost match, left-biased alternation, greedy or lazy bounded
repetition, and zero-width word boundaries. -/

/-- Regular-expression AST (enough for every pattern in the analyzer). -/
inductive RE where
  | eps : RE
  | cls (p : Char → Bool) : RE
  | seq (a b : RE) : RE
  | alt (a b : RE) : RE
  | rep (a : RE) (lo : Nat) (hi : Option Nat) (lazy : Bool) : RE
  | wordB : RE

/-- Structural size of a pattern (used to compute matching fuel). -/
def reSize : RE → Nat
  | .eps => 1
  | .cls _ => 1
  | .seq a b => reSize a + reSize b + 1
  | .alt a b => reSize a + reSize b + 1
  | .rep a _ _ _ => reSize a + 1
  | .wordB => 1

/-- Word-boundary test between the previous character and the rest of the
input. -/
def wordBoundary (prev : Option Char) (s : Str) : Bool :=
  let pw := match prev with | some c => isWordC c | none => false
  let nw := match s with | c :: _ => isWordC c | [] => false
  pw != nw

/-- Backtracking matcher in continuation-passing style.  The continuation
receives the previous character and the remaining input; a successful
overall match returns the remaining suffix after the whole match. -/
def mC : Nat → RE → Option Char → Str → (Option Char → Str → Option Str) → Option Str
  | 0, _, _, _, _ => none
  | _ + 1, .eps, prev, s, k => k prev s
  | _ + 1, .cls p, _, s, k =>
    match s with
    | [] => none
    | c :: rest => if p c then k (some c) rest else none
  | f + 1, .seq a b, prev, s, k =>
    mC f a prev s (fun p' s' => mC f b p' s' k)
  | f + 1, .alt a b, prev, s, k =>
    match mC f a prev s k with
    | some r => some r
    | none => mC f b prev s k
  | _ + 1, .wordB, prev, s, k =>
    if wordBoundary prev s then k prev s else none
  | f + 1, .rep a lo hi lz, prev, s, k =>
    if lo ≠ 0 then
      mC f a prev s (fun p' s' => mC f (.rep a (lo - 1) (hi.map (· - 1)) lz) p' s' k)
    else
      match hi with
      | some 0 => k prev s
      | _ =>
        let go := mC f a prev s (fun p' s' => mC f (.rep a 0 (hi.map (· - 1)) lz) p' s' k)
        if lz then
          match k prev s with
          | some r => some r
          | none => go
        else
          match go with
          | some r => some r
          | none => k prev s

/-- Fuel that is always sufficient for the bounded patterns used here. -/
def fuelFor (re : RE) (s : Str) : Nat := (reSize re + 8) * (s.length + 8)

/-- Try to match `re` at the very start of `rest` (given the previous
character `prev`); returns the number of characters consumed. -/
def tryAt (re : RE) (prev : Option Char) (rest : Str) : Option Nat :=
  match mC (fuelFor re rest) re prev rest (fun _ s' => some s') with
  | some rem => some (rest.length - rem.length)
  | none => none

/-- Scan left to right for the leftmost match; returns absolute
`(start, stop)` indices. -/
def scanFrom (re : RE) : Option Char → Str → Nat → Option (Nat × Nat)
  | prev, rest, idx =>
    match tryAt re prev rest with
    | some n => some (idx, idx + n)
    | none =>
      match rest with
      | [] => none
      | c :: rs => scanFrom re (some c) rs (idx + 1)

/-- Python `re.search(...) is not None`. -/
def reHas (re : RE) (s : Str) : Bool := (scanFrom re none s 0).isSome

/-- First match span of `re.search`. -/
def reFirst (re : RE) (s : Str) : Option (Nat × Nat) := scanFrom re none s 0

/-- Python `re.finditer` spans: repeated leftmost search, resuming after
each (nonempty) match, advancing one position after an empty match. -/
def findAllAux (re : RE) (s : Str) : Nat → Nat → List (Nat × Nat)
  | 0, _ => []
  | fuel + 1, pos =>
    let rest := s.drop pos
    let prev := if pos = 0 then none else (s.take pos).getLast?
    match scanFrom re prev rest pos with
    | none => []
    | some (st, en) =>
      (st, en) :: findAllAux re s fuel (if en ≤ st then st + 1 else en)

/-- All non-overlapping match spans of `re` in `s`. -/
def findAll (re : RE) (s : Str) : List (Nat × Nat) :=
  findAllAux re s (s.length + 1) 0

/-- Number of matches (`len(re.findall(...))`). -/
def countMatches (re : RE) (s : Str) : Nat := (findAll re s).length

/-- The matched substrings of `re.finditer`. -/
def allSpans (re : RE) (s : Str) : List Str :=
  (findAll re s).map (fun sp => pySlice s sp.1 sp.2)

/-! Pattern-building helpers. -/

/-- Single literal character. -/
def chP (c : Char) : RE := .cls (fun x => x == c)

/-- Case-insensitive single character. -/
def chCI (c : Char) : RE := .cls (fun x => toLowerC x == toLowerC c)

/-- Concatenation of a list of patterns. -/
def rcat : List RE → RE
  | [] => .eps
  | [r] => r
  | r :: rs => .seq r (rcat rs)

/-- Left-biased alternation of a list of patterns. -/
def ralt : List RE → RE
  | [] => .cls (fun _ => false)
  | [r] => r
  | r :: rs => .alt r (ralt rs)

/-- Case-sensitive literal string. -/
def lit (s : String) : RE := rcat (s.data.map chP)

/-- Case-insensitive literal string. -/
def litCI (s : String) : RE := rcat (s.data.map chCI)

/-- Whitespace class. -/
def wsC : RE := .cls isWsC

/-- `\s+`. -/
def ws1 : RE := .rep wsC 1 none false

/-- `\s*`. -/
def ws0 : RE := .rep wsC 0 none false

/-- Digit class. -/
def dgt : RE := .cls Char.isDigit

/-- ASCII letter class `[A-Za-z]`. -/
def alphaC : RE := .cls Char.isAlpha

/-- Greedy bounded repetition `{lo,hi}`. -/
def rng (lo hi : Nat) (r : RE) : RE := .rep r lo (some hi) false

/-- Greedy `{lo,}`. -/
def atLeast (lo : Nat) (r : RE) : RE := .rep r lo none false

/-- Greedy option `?`. -/
def opt (r : RE) : RE := .rep r 0 (some 1) false

/-- Greedy star. -/
def starG (r : RE) : RE := .rep r 0 none false

/-- Lazy star. -/
def starL (r : RE) : RE := .rep r 0 none true

/-- Word boundary. -/
def bnd : RE := RE.wordB

/-- `.` without DOTALL: any character except newline. -/
def dotNoNl : RE := .cls (fun c => c != '\n')

/-- `.` with DOTALL: any character. -/
def dotAny : RE := .cls (fun _ => true)

/-! ### Pattern constants of the analyzer

Each definition below is the embedding of one entry of the module-level
pattern tables of `form_analyzer.py`. -/

/-- `PII_PATTERNS`, in source order, as (key, pattern) pairs. -/
def piiPatterns : List (Str × RE) :=
  [ (str "ssn",   rcat [bnd, ralt [litCI "ssn", litCI "social security number"], bnd])
  , (str "dob",   rcat [bnd, ralt [litCI "date of birth", litCI "dob"], bnd])
  , (str "tin",   rcat [bnd, ralt [litCI "tin", litCI "taxpayer identification"], bnd])
  , (str "ein",   rcat [bnd, ralt [litCI "employer identification number", litCI "ein"], bnd])
  , (str "dl",    rcat [bnd, ralt [rcat [litCI "driver", opt (chP apos), litCI "s license"], litCI "state id"], bnd])
  , (str "acct",  rcat [bnd, ralt [litCI "account number", litCI "routing number", litCI "iban"], bnd])
  , (str "addr",  rcat [bnd, ralt [litCI "address", litCI "street", litCI "city", litCI "state", litCI "zip"], bnd])
  , (str "phone", rcat [bnd, ralt [litCI "phone", litCI "telephone", litCI "cell"], bnd])
  , (str "email", rcat [bnd, litCI "email", bnd]) ]

/-- `ATTACHMENT_HINTS`, in source order, paired with their source pattern
text (the analyzer reports the pattern string itself as the hit). -/
def attachmentHints : List (Str × RE) :=
  [ (str "\\battach(ed)?\\b",
      rcat [bnd, litCI "attach", opt (litCI "ed"), bnd])
  , (str "\\b(include|provide)\\s+(a|an|the)?\\s*(copy|document|proof)\\b",
      rcat [bnd, ralt [litCI "include", litCI "provide"], ws1,
            opt (ralt [litCI "a", litCI "an", litCI "the"]), ws0,
            ralt [litCI "copy", litCI "document", litCI "proof"], bnd])
  , (str "\\bvoided check\\b", rcat [bnd, litCI "voided check", bnd])
  , (str "\\bphoto id\\b", rcat [bnd, litCI "photo id", bnd])
  , (str "\\b(driver" ++ aposS ++ str "?s license|passport)\\b",
      rcat [bnd, ralt [rcat [litCI "driver", opt (chP apos), litCI "s license"], litCI "passport"], bnd])
  , (str "\\b(account statement|bank statement)\\b",
      rcat [bnd, ralt [litCI "account statement", litCI "bank statement"], bnd])
  , (str "\\bsupporting (documents|documentation)\\b",
      rcat [bnd, litCI "supporting ", ralt [litCI "documents", litCI "documentation"], bnd]) ]

/-- `ROLE_HINTS`, in source order. -/
def roleHints : List (Str × RE) :=
  [ (str "applicant", rcat [bnd, ralt [litCI "applicant", litCI "borrower", litCI "member"], ws1, litCI "signature", bnd])
  , (str "co_owner",  rcat [bnd, ralt
      [ rcat [litCI "co", opt (.cls (fun c => c == '-' || isWsC c)), litCI "owner"]
      , rcat [litCI "co", opt (.cls (fun c => c == '-' || isWsC c)), litCI "applicant"] ], ws1, litCI "signature", bnd])
  , (str "guardian",  rcat [bnd, ralt [litCI "parent", litCI "guardian"], ws1, litCI "signature", bnd])
  , (str "spouse",    rcat [bnd, litCI "spouse", ws1, litCI "signature", bnd])
  , (str "officer",   rcat [bnd, ralt [litCI "officer", litCI "authorized signer"], ws1, litCI "signature", bnd])
  , (str "witness",   rcat [bnd, litCI "witness", ws1, litCI "signature", bnd])
  , (str "notary",    rcat [bnd, litCI "notary", ws1, ralt [litCI "public", litCI "signature"], bnd]) ]

/-- `THIRD_PARTY_PATTERNS`, in source order. -/
def thirdPartyPatterns : List (Str × RE) :=
  [ (str "Witness",           rcat [bnd, litCI "witness", bnd])
  , (str "Physician",         rcat [bnd, ralt [litCI "physician", litCI "doctor", litCI "md", litCI "do"], bnd])
  , (str "Financial Advisor", rcat [bnd, ralt [litCI "financial advisor", litCI "advisor", litCI "adviser",
                                               litCI "ria", litCI "broker-dealer", litCI "broker"], bnd])
  , (str "Attorney",          rcat [bnd, ralt [litCI "attorney", litCI "lawyer", litCI "counsel",
                                               rcat [litCI "esq", opt (chP '.')]], bnd])
  , (str "Guardian/POA",      rcat [bnd, ralt [litCI "guardian", litCI "conservator", litCI "power of attorney",
                                               litCI "poa", litCI "agent under poa"], bnd])
  , (str "Employer/HR",       rcat [bnd, ralt [litCI "employer", litCI "human resources", litCI "hr department",
                                               litCI "hr rep", litCI "supervisor"], bnd])
  , (str "Court/Clerk",       rcat [bnd, ralt [litCI "court clerk", litCI "clerk of court", litCI "court"], bnd]) ]

/-- `CORE_SIGNER_TERMS`. -/
def coreSignerTerms : List Str :=
  [str "Applicant", str "Borrower", str "Member", str "Customer", str "Account Holder",
   str "Co-owner", str "Co-applicant", str "Spouse"]

/-- `FIELD_CLASS_PATTERNS`, in source order (matched without `re.I` against
an already lowercased haystack). -/
def fieldClassPatterns : List (Str × RE) :=
  [ (str "ssn",      rcat [bnd, ralt [lit "ssn", lit "social security"], bnd])
  , (str "tin",      rcat [bnd, ralt [lit "tin", lit "taxpayer"], bnd])
  , (str "ein",      rcat [bnd, ralt [lit "ein", rcat [lit "employer id", opt (lit "entification")]], bnd])
  , (str "dob",      rcat [bnd, ralt [lit "date of birth", lit "dob"], bnd])
  , (str "date",     rcat [bnd, lit "date", bnd])
  , (str "phone",    rcat [bnd, ralt [lit "phone", lit "telephone", lit "cell"], bnd])
  , (str "email",    rcat [bnd, lit "e", opt (.cls (fun c => c == '-' || c == ' ')), lit "mail", bnd])
  , (str "zip",      rcat [bnd, ralt [lit "zip", lit "postal"], bnd])
  , (str "state",    rcat [bnd, ralt [lit "state", rcat [lit "prov", opt (lit "ince")]], bnd])
  , (str "routing",  rcat [bnd, ralt [lit "routing", lit "aba"], bnd])
  , (str "account",  rcat [bnd, ralt [lit "account", lit "acct"], bnd])
  , (str "amount",   rcat [bnd, ralt [lit "amount", lit "usd", chP '$'], bnd])
  , (str "signature", rcat [bnd, lit "signature", bnd])
  , (str "notary",   rcat [bnd, lit "notary", bnd])
  , (str "witness",  rcat [bnd, lit "witness", bnd]) ]

/-- `HIGH_RISK_FIELDS`. -/
def highRiskFields : List Str :=
  [str "ssn", str "dob", str "routing", str "account", str "email",
   str "phone", str "zip", str "state", str "tin", str "ein"]

/-- `RULE_WEIGHTS` lookup with default 0. -/
def ruleWeight (rule : Str) : ℤ :=
  if rule = str "REQ-001" then 5
  else if rule = str "FMT-001" then 8
  else if rule = str "SIG-002" then 4
  else if rule = str "COND-003" then 6
  else if rule = str "ROLE-001" then 6
  else if rule = str "THRD-001" then 6
  else 0

/-- `SEVERITY_WEIGHTS` lookup with default 0. -/
def sevWeight (sev : Str) : ℤ :=
  if sev = str "high" then 20
  else if sev = str "medium" then 12
  else if sev = str "low" then 6
  else 0

/-- `[A-Za-z0-9\-_/\.]+` (the trailing token class of the dependency
rules). -/
def formIdCls1 : RE := .rep (.cls (fun c => c.isAlphanum || c == '-' || c == '_' || c == '/' || c == '.')) 1 none false

/-- `DEPENDENCY_PATTERNS` (matched with `re.I | re.S`, so `.` spans
newlines), in source order, as (relation, pattern) pairs. -/
def dependencyPatterns : List (Str × RE) :=
  [ (str "with",
      rcat [bnd, ralt [litCI "submit", litCI "send", litCI "file", litCI "include"], ws1,
            opt (rcat [litCI "this", ws1]), litCI "form", ws1,
            ralt [litCI "with", litCI "along with"], ws1,
            opt (rcat [litCI "form", ws1]), formIdCls1])
  , (str "with",
      rcat [bnd, ralt [litCI "accompany", litCI "in conjunction with", litCI "together with", litCI "in addition to"],
            ws1, opt (rcat [litCI "form", ws1]), formIdCls1])
  , (str "before",
      rcat [bnd, ralt [litCI "before", litCI "prior to"], ws1,
            ralt [litCI "submitting", litCI "sending"], ws1,
            opt (rcat [litCI "this", ws1]), litCI "form", starL dotAny, bnd,
            opt (rcat [litCI "form", ws1]), formIdCls1])
  , (str "after",
      rcat [bnd, ralt [litCI "after", litCI "following"], ws1,
            ralt [litCI "approval", litCI "submission", litCI "receipt"], ws1,
            litCI "of", ws1, opt (rcat [litCI "form", ws1]), formIdCls1])
  , (str "see",
      rcat [bnd, ralt [litCI "see", litCI "refer to"], ws1,
            ralt [litCI "form", litCI "document"], ws1, formIdCls1]) ]

/-- `FORM_TOKEN` (searched with `re.I`; its group 1 spans the whole
match, so the extracted id equals the full match). -/
def formTokenRE : RE :=
  rcat [ ralt [litCI "SF", litCI "GSA", litCI "SSA", litCI "IRS", litCI "USCIS", litCI "I",
               litCI "DS", litCI "W", litCI "POA", litCI "DPOA", litCI "DOA", litCI "F",
               litCI "FRM", litCI "APP", litCI "ACCT", litCI "CHG"]
       , opt (.cls (fun c => c == '-' || isWsC c))
       , .rep dgt 1 none false
       , starG (.cls (fun c => c.isAlphanum || c == '-')) ]

/-- `DEADLINE_PATTERNS` (matched with `re.I`, `.` does not span newlines),
in source order. -/
def deadlinePatterns : List RE :=
  [ rcat [bnd, litCI "within", ws1, rng 1 3 dgt, ws1, ralt [litCI "calendar", litCI "business"], ws1, litCI "days", bnd]
  , rcat [bnd, litCI "within", ws1, rng 1 2 dgt, ws1, litCI "month", opt (litCI "s"), bnd]
  , rcat [bnd, litCI "no", ws1, litCI "later", ws1, litCI "than", ws1, rng 1 3 dgt, ws1,
          ralt [litCI "days", litCI "business days"], bnd]
  , rcat [bnd, litCI "by", ws1, opt (rcat [litCI "the", ws1]), rng 1 2 dgt, chP '/', rng 1 2 dgt, chP '/', rng 2 4 dgt, bnd]
  , rcat [bnd, litCI "by", ws1, opt (rcat [litCI "the", ws1]), rng 3 9 alphaC, ws1, rng 1 2 dgt, chP ',', ws1, rng 4 4 dgt, bnd]
  , rcat [bnd, litCI "postmarked", ws1, litCI "within", ws1, rng 1 3 dgt, ws1, litCI "days", bnd]
  , rcat [bnd, rng 1 3 dgt, ws1, ralt [litCI "calendar", litCI "business"], ws1, litCI "days", ws1, litCI "of", ws1,
          ralt [litCI "receipt", rcat [litCI "effective", ws1, litCI "date"], litCI "notification"], bnd]
  , rcat [bnd, litCI "on or before", ws1, rng 1 2 dgt, chP '/', rng 1 2 dgt, chP '/', rng 2 4 dgt, bnd]
  , rcat [bnd, litCI "on or before", ws1, rng 3 9 alphaC, ws1, rng 1 2 dgt, chP ',', ws1, rng 4 4 dgt, bnd]
  , rcat [bnd, litCI "must be ", ralt [litCI "received", litCI "submitted", litCI "returned"], ws1,
          litCI "within", ws1, rng 1 3 dgt, ws1,
          ralt [litCI "days", litCI "business days", litCI "weeks", litCI "months"], bnd]
  , rcat [bnd, litCI "no later than", bnd]
  , rcat [bnd, litCI "on or before", bnd]
  , rcat [bnd, litCI "within", ws1, rng 1 3 dgt, ws1,
          ralt [litCI "days", litCI "business days", litCI "weeks", litCI "months"], bnd]
  , rcat [bnd, litCI "postmarked by", bnd]
  , rcat [bnd, litCI "effective date", bnd, starL dotNoNl, bnd, litCI "within", ws1, rng 1 3 dgt, ws1,
          ralt [litCI "days", litCI "business days"], bnd] ]

/-- `NOTARY_PATTERNS` joined with `|` (searched without `re.I` on the
already lowercased text). -/
def notaryJoinedRE : RE :=
  ralt [ rcat [bnd, lit "notary", bnd]
       , rcat [bnd, lit "notariz", ralt [lit "ed", lit "ation"], bnd]
       , rcat [bnd, lit "acknowledged", bnd]
       , rcat [bnd, lit "sworn", bnd]
       , rcat [bnd, lit "affirmed", bnd] ]

/-- The three conditional-signature patterns (`findall` without flags). -/
def conditionalSigPatterns : List RE :=
  [ rcat [lit "if", starG dotNoNl, lit "sign"]
  , rcat [lit "when", starG dotNoNl, lit "sign"]
  , rcat [lit "unless", starG dotNoNl, lit "sign"] ]

/-- The `\bsignature\b` block filter of the signature layout heuristic. -/
def signatureWordRE : RE := rcat [bnd, litCI "signature", bnd]

/-- The `\bwitness\b` block filter of the witness layout heuristic. -/
def witnessWordRE : RE := rcat [bnd, litCI "witness", bnd]

/-- The underscore-run test `_{5,}|_{3,}\s*/{0,1}` of the signature layout
heuristic (note: the second alternative already accepts three underscores). -/
def underlineRE : RE :=
  ralt [atLeast 5 (chP '_'), rcat [atLeast 3 (chP '_'), ws0, rng 0 1 (chP '/')]]

/-- `\b(date)\b` of rule SIG-002. -/
def dateWordRE : RE := rcat [bnd, lit "date", bnd]

/-- `\b(beneficiary|dependent)\b` of rule COND-003. -/
def beneficiaryRE : RE := rcat [bnd, ralt [lit "beneficiary", lit "dependent"], bnd]

/-! ### Text normalization (`_normalize_text_for_rules`)

The three `re.sub` passes are embedded as character-list scans with the
semantics of the corresponding patterns:

* pass 1, `(\w)-\s*\n\s*(\w)` -> `\1\2`: a match starts at a word
  character followed by a hyphen, a whitespace run containing a newline,
  and another word character; the scan resumes after the second word
  character (`re.sub` continues after each match);
* pass 2, `\s*\n\s*` -> a space: every maximal whitespace run containing a
  newline collapses to one space;
* pass 3, `\s{2,}` -> a space: every maximal whitespace run of length at
  least two collapses to one space. -/

/-- Pass 1 scanner: join hyphenated line breaks.  A match needs a word
character, a hyphen, a whitespace run containing a newline, and a
following word character; it emits the two word characters and resumes
after them.  The pending state holds a tentative word character and the
whitespace run seen after its hyphen; on failure the pending characters
are flushed verbatim (no later match can start inside them, because a
match starts with a word character). -/
def dhGo : Option (Char × Str) → Str → Str
  | none, [] => []
  | none, [d] => [d]
  | none, d :: e :: rest =>
    if isWordC d ∧ e = '-' then dhGo (some (d, [])) rest
    else d :: dhGo none (e :: rest)
  | some (c, run), [] => c :: '-' :: run
  | some (c, run), [d] =>
    if isWsC d then c :: '-' :: (run ++ [d])
    else if isWordC d ∧ run.any (· == '\n') then [c, d]
    else c :: '-' :: (run ++ [d])
  | some (c, run), d :: e :: rest =>
    if isWsC d then dhGo (some (c, run ++ [d])) (e :: rest)
    else if isWordC d ∧ run.any (· == '\n') then c :: d :: dhGo none (e :: rest)
    else if isWordC d ∧ e = '-' then (c :: '-' :: run) ++ dhGo (some (d, [])) rest
    else (c :: '-' :: run) ++ d :: dhGo none (e :: rest)

/-- Pass 1: join hyphenated line breaks. -/
def dehyphen (s : Str) : Str := dhGo none s

/-- Flush a pending whitespace run for pass 2: a run containing a newline
collapses to one space, any other run stays. -/
def flushNl (run : Str) : Str :=
  if run.any (· == '\n') then [' '] else run

/-- Pass 2 scanner with the pending whitespace run as accumulator. -/
def cnGo (run : Str) : Str → Str
  | [] => flushNl run
  | c :: rest =>
    if isWsC c then cnGo (run ++ [c]) rest
    else flushNl run ++ c :: cnGo [] rest

/-- Pass 2: collapse every newline-containing whitespace run to one
space (`flushNl []` is empty, so a leading empty run flushes to
nothing). -/
def collapseNl (s : Str) : Str := cnGo [] s

/-- Pass 3 scanner: `skipping` means the current whitespace run has
already been emitted as one space and its remaining characters are
dropped. -/
def cwGo : Bool → Str → Str
  | _, [] => []
  | true, c :: rest =>
    if isWsC c then cwGo true rest else c :: cwGo false rest
  | false, c :: rest =>
    if isWsC c then
      match rest.head? with
      | some d => if isWsC d then ' ' :: cwGo true rest else c :: cwGo false rest
      | none => [c]
    else c :: cwGo false rest

/-- Pass 3: collapse every whitespace run of length at least two to one
space (a run of length one survives unchanged). -/
def collapseWs (s : Str) : Str := cwGo false s

/-- `_normalize_text_for_rules`. -/
def normalizeTextForRules (raw : Str) : Str :=
  if raw = [] then [] else collapseWs (collapseNl (dehyphen raw))

/-! ### Document-access facts

The pipeline consumes text, metadata and widget/graphics facts supplied
by the decoding capability (spec section 6); decoding itself is out of
scope.  `DocFacts` packages everything a successfully decoded document
exposes.  A fatal decode failure is an `Except.error` upstream of the
pipeline (claim C9). -/

/-- A rectangle, as `fitz.Rect` (x0, y0, x1, y1). -/
structure Rect where
  x0 : ℚ
  y0 : ℚ
  x1 : ℚ
  y1 : ℚ
deriving DecidableEq

/-- A line segment from a page drawing. -/
structure Seg where
  x0 : ℚ
  y0 : ℚ
  x1 : ℚ
  y1 : ℚ
deriving DecidableEq

/-- One item of a vector drawing: a line segment (an `("l", p1, p2)`
item) or anything else. -/
inductive DrawItem where
  | line (x0 y0 x1 y1 : ℚ) : DrawItem
  | other : DrawItem
deriving DecidableEq

/-- PDF widget (form field) types distinguished by the analyzer. -/
inductive WType where
  | text | checkbox | combobox | listbox | signature | radiobutton | other
deriving DecidableEq

/-- One interactive widget, with the attributes the analyzer reads. -/
structure Widget where
  name : Str
  tooltip : Str
  wtype : WType
  isSigFlag : Bool
  required : Bool
  rect : Rect
  hasActions : Bool
deriving DecidableEq

/-- Facts of one page: text blocks (rectangle and text), vector drawings
(each a list of items), widgets, action/JavaScript presence, and graphics
statistics inputs. -/
structure PageFacts where
  blocks : List (Rect × Str)
  drawings : List (List DrawItem)
  widgets : List Widget
  pageActions : Bool
  pageJS : Bool
  images : Nat
  textLen : Nat
deriving DecidableEq

/-- Facts of a successfully decoded document. -/
structure DocFacts where
  rawText : Str
  meta : List (Str × Str)
  pages : List PageFacts
  docActions : Bool
  docJS : Bool
  digitalSigs : Option (List Bool)
  embeddedFiles : Nat
deriving DecidableEq

/-- All widgets of the document, in page order. -/
def allWidgets (facts : DocFacts) : List Widget :=
  (facts.pages.map (fun p => p.widgets)).flatten

/-- `extract_text`: page text joined by the decoder, lowercased, then
normalized (the pipeline always lowercases before `_normalize_text_for_rules`). -/
def extractText (raw : Str) : Str := normalizeTextForRules (pyLower raw)

/-! ### Detector outputs. -/

/-- `detect_pii` result: the nine PII flags plus the derived `any_pii`. -/
structure PiiFlags where
  ssn : Bool
  dob : Bool
  tin : Bool
  ein : Bool
  dl : Bool
  acct : Bool
  addr : Bool
  phone : Bool
  email : Bool
  any_pii : Bool
deriving DecidableEq

/-- `count_fields` result. -/
structure FieldCounts where
  total : Nat
  text_fields : Nat
  checkboxes : Nat
  dropdowns : Nat
  signatures : Nat
deriving DecidableEq

/-- `analyze_signatures` result (`notarized` is the literal "Yes"/"No"
string of the source). -/
structure SigAnalysis where
  signature_count : Nat
  witness_signature_count : Nat
  conditional_signature_count : Nat
  notarized : Str
  debugWidgets : Nat
  debugDigital : Nat
  debugFallback : Nat
deriving DecidableEq

/-- `page_graphics_stats` result. -/
structure Gfx where
  images_per_page : ℚ
  drawings_per_page : ℚ
  text_density : ℚ
deriving DecidableEq

/-- One NIGO finding record. -/
structure Finding where
  rule_id : Str
  severity : Str
  page : Option Nat
  field_name : Str
  field_class : Str
  issue : Str
  evidence : Str
deriving DecidableEq

/-- One dependency record of `detect_dependencies`. -/
structure Dep where
  relation : Str
  hint : Str
  form_id : Option Str
deriving DecidableEq

/-- `host_domain_info` result. -/
structure DomainTrust where
  host_domain : Str
  host_root : Str
  issuer_guess : Str
  issuer_domains_matched : List Str
  brand_text_hits : List Str
  brand_meta_hits : List Str
  confidence : ℤ
  mismatch : Bool
  reason : Str
deriving DecidableEq

/-- The extra-parameter map handed to `calculate_complexity`. -/
structure Extra where
  pii : PiiFlags
  roles : List Str
  attachments_req : List Str
  radio_groups : Nat
  gfx : Gfx
  xfa_hint : Bool
  has_js : Bool
  deadlines : Nat
  dependencies : Nat
  domain_mismatch : Bool
  third_party_count : Nat
  third_party_roles : List Str
deriving DecidableEq

/-! ### Field counting (`count_fields`) -/

/-- The `elif` chain of `count_fields` applied to one widget. -/
def countFieldsStep (acc : FieldCounts) (w : Widget) : FieldCounts :=
  let acc := { acc with total := acc.total + 1 }
  match w.wtype with
  | .text => { acc with text_fields := acc.text_fields + 1 }
  | .checkbox => { acc with checkboxes := acc.checkboxes + 1 }
  | .combobox => { acc with dropdowns := acc.dropdowns + 1 }
  | .listbox => { acc with dropdowns := acc.dropdowns + 1 }
  | .signature => { acc with signatures := acc.signatures + 1 }
  | _ => if w.isSigFlag then { acc with signatures := acc.signatures + 1 } else acc

/-- `count_fields`. -/
def count_fields (facts : DocFacts) : FieldCounts :=
  (allWidgets facts).foldl countFieldsStep ⟨0, 0, 0, 0, 0⟩

/-! ### Layout signature/witness heuristics -/

/-- The near-horizontal long segments of a page's drawings
(`abs(y1-y0) < 1` and `abs(x1-x0) > 60`). -/
def horizLines (p : PageFacts) : List Seg :=
  (p.drawings.map (fun d => d.filterMap (fun it =>
    match it with
    | .line x0 y0 x1 y1 =>
      if |y1 - y0| < 1 ∧ 60 < |x1 - x0| then some ⟨x0, y0, x1, y1⟩ else none
    | .other => none))).flatten

/-- The horizontal band beneath/right of a text block. -/
def bandOf (r : Rect) : Rect := ⟨r.x0 - 10, r.y1 - 6, r.x1 + 200, r.y1 + 18⟩

/-- Does some near-horizontal segment meet the band (the test of the
layout heuristics, on the segment's starting y)? -/
def closeLine (band : Rect) (horiz : List Seg) : Bool :=
  horiz.any (fun l =>
    decide ((band.y0 - 6 ≤ l.y0 ∧ l.y0 ≤ band.y1 + 6) ∧ ¬(l.x1 < band.x0 ∨ band.x1 < l.x0)))

/-- Per-page count of `_estimate_text_signatures`: blocks mentioning
"signature", counted when a close line or an underscore run is present;
pages with no such block are skipped (contributing zero). -/
def sigPageCount (p : PageFacts) : Nat :=
  let sigBlocks := p.blocks.filter (fun b => reHas signatureWordRE b.2)
  if sigBlocks = [] then 0
  else
    let horiz := horizLines p
    min (sigBlocks.filter (fun b =>
      closeLine (bandOf b.1) horiz || reHas underlineRE b.2)).length 2

/-- `_estimate_text_signatures` (document successfully opened; the
text parameter mirrors the source signature, which only consults it on
the open-failure path). -/
def estimateTextSignatures (facts : DocFacts) (_text : Str) : Nat :=
  min ((facts.pages.map sigPageCount).sum) 5

/-- Per-page count of `_estimate_witness_signatures`: blocks mentioning
"witness", counted only when a close line is present (no underscore-run
test in the source). -/
def witnessPageCount (p : PageFacts) : Nat :=
  let wBlocks := p.blocks.filter (fun b => reHas witnessWordRE b.2)
  let horiz := horizLines p
  min (wBlocks.filter (fun b => closeLine (bandOf b.1) horiz)).length 2

/-- `_estimate_witness_signatures`. -/
def estimateWitnessSignatures (facts : DocFacts) (_text : Str) : Nat :=
  min ((facts.pages.map witnessPageCount).sum) 4

/-- Modelled from the spec: the claim C8 wording says the witness count
uses the layout heuristic of the signature fallback parameterized only by
the keyword, so this generic version keeps both criteria switchable:
blocks matching `kw`, counted when a close line is present or (when
`useUnd` is on) the block text has an underscore run; capped at two per
page and `cap` in total. -/
def layoutKeyedCount (kw : RE) (useUnd : Bool) (p : PageFacts) : Nat :=
  let blocks := p.blocks.filter (fun b => reHas kw b.2)
  let horiz := horizLines p
  min (blocks.filter (fun b =>
    closeLine (bandOf b.1) horiz || (useUnd && reHas underlineRE b.2))).length 2

/-- Modelled from the spec: total layout estimate keyed on `kw` with
total cap `cap` (see `layoutKeyedCount`). -/
def layoutKeyedEstimate (kw : RE) (useUnd : Bool) (cap : Nat) (facts : DocFacts) : Nat :=
  min ((facts.pages.map (layoutKeyedCount kw useUnd)).sum) cap

/-- Modelled from the spec: the witness estimate claim C8 describes — the
signature layout heuristic (both criteria) keyed on "witness", capped
2 per page and 4 in total. -/
def specWitnessLayoutEstimate (facts : DocFacts) : Nat :=
  layoutKeyedEstimate witnessWordRE true 4 facts

/-! ### Signature analysis (`analyze_signatures`) -/

/-- Widgets counted as signature widgets by `analyze_signatures`
(signature type or the `is_signature` flag; unlike `count_fields`, not an
`elif` chain). -/
def widgetSigCount (facts : DocFacts) : Nat :=
  ((allWidgets facts).filter (fun w => w.wtype == WType.signature || w.isSigFlag)).length

/-- Number of digital signatures (a missing pyHanko capability degrades
to zero). -/
def digSigCount (facts : DocFacts) : Nat :=
  match facts.digitalSigs with
  | none => 0
  | some l => l.length

/-- Does some digital signature carry a timestamp? -/
def digHasTimestamp (facts : DocFacts) : Bool :=
  match facts.digitalSigs with
  | none => false
  | some l => l.any id

/-- `analyze_signatures`. -/
def analyze_signatures (facts : DocFacts) (text : Str) : SigAnalysis :=
  let sigWidgets := widgetSigCount facts
  let digSigs := digSigCount facts
  let hasTs := digHasTimestamp facts
  let textFb := if sigWidgets + digSigs = 0 then estimateTextSignatures facts text else 0
  let witness := estimateWitnessSignatures facts text
  let notarizedKw := reHas notaryJoinedRE text
  { signature_count := sigWidgets + digSigs + textFb
  , witness_signature_count := witness
  , conditional_signature_count := (conditionalSigPatterns.map (fun p => countMatches p text)).sum
  , notarized := if hasTs || notarizedKw then str "Yes" else str "No"
  , debugWidgets := sigWidgets
  , debugDigital := digSigs
  , debugFallback := textFb }

/-! ### Simple text detectors -/

/-- `detect_pii`. -/
def detect_pii (text : Str) : PiiFlags :=
  let f := fun key => (piiPatterns.filter (fun kp => kp.1 = key)).any (fun kp => reHas kp.2 text)
  let flags : List Bool := piiPatterns.map (fun kp => reHas kp.2 text)
  { ssn := f (str "ssn"), dob := f (str "dob"), tin := f (str "tin"), ein := f (str "ein")
  , dl := f (str "dl"), acct := f (str "acct"), addr := f (str "addr")
  , phone := f (str "phone"), email := f (str "email")
  , any_pii := flags.any id }

/-- `detect_attachment_requirements`: the matched pattern strings,
as `sorted(set(...))`. -/
def detect_attachment_requirements (text : Str) : List Str :=
  sortedSet ((attachmentHints.filter (fun hp => reHas hp.2 text)).map (fun hp => hp.1))

/-- `detect_roles`: role keys whose pattern matches, in table order. -/
def detect_roles (text : Str) : List Str :=
  (roleHints.filter (fun rp => reHas rp.2 text)).map (fun rp => rp.1)

/-- `count_radio_groups`: distinct nonempty radio-widget name stems
(`field_name.split(".")[0]`). -/
def count_radio_groups (facts : DocFacts) : Nat :=
  (((allWidgets facts).filterMap (fun w =>
    if w.wtype == WType.radiobutton then
      let stem := w.name.takeWhile (· ≠ '.')
      if stem ≠ [] then some stem else none
    else none)).dedup).length

/-- `detect_js`: document, page or widget actions/JavaScript, or at least
two radio-button widgets. -/
def detect_js (facts : DocFacts) : Str :=
  if facts.docActions || facts.docJS
     || facts.pages.any (fun p => p.pageActions || p.pageJS || p.widgets.any (fun w => w.hasActions))
     || 2 ≤ ((allWidgets facts).filter (fun w => w.wtype == WType.radiobutton)).length
  then str "Yes" else str "No"

/-- `page_graphics_stats` (averages rounded to two decimals half-even). -/
def page_graphics_stats (facts : DocFacts) : Gfx :=
  let pages : ℚ := (max 1 facts.pages.length : Nat)
  let imgTotal : ℚ := ((facts.pages.map (fun p => p.images)).sum : Nat)
  let drawTotal : ℚ := ((facts.pages.map (fun p => p.drawings.length)).sum : Nat)
  let charTotal : ℚ := ((facts.pages.map (fun p => p.textLen)).sum : Nat)
  { images_per_page := round2 (imgTotal / pages)
  , drawings_per_page := round2 (drawTotal / pages)
  , text_density := round2 (charTotal / pages) }

/-- A minimal `json.dumps` of a flat string map (`{"k": "v", ...}`),
enough for the substring probe of `xfa_like_hint`. -/
def jsonDumps (meta : List (Str × Str)) : Str :=
  [Char.ofNat 123]
  ++ joinWith (str ", ")
       (meta.map (fun kv => [Char.ofNat 34] ++ kv.1 ++ [Char.ofNat 34] ++ str ": "
                            ++ [Char.ofNat 34] ++ kv.2 ++ [Char.ofNat 34]))
  ++ [Char.ofNat 125]

/-- `xfa_like_hint`. -/
def xfa_like_hint (text : Str) (meta : List (Str × Str)) : Bool :=
  let joined := pyLower (jsonDumps meta ++ [Char.ofNat 10] ++ text)
  [str "xfa", str "dynamic xdp", str "xfa form", str "livecycle"].any
    (fun k => containsStr joined k)

/-! ### Field classification and NIGO design checks -/

/-- Do two rectangles intersect (the `clip=` block filter of
`page.get_text("blocks", clip=search)`)? -/
def rectsIntersect (a b : Rect) : Bool :=
  decide (b.x0 ≤ a.x1 ∧ a.x0 ≤ b.x1 ∧ b.y0 ≤ a.y1 ∧ a.y0 ≤ b.y1)

/-- `_label_near_widget`: text of the blocks meeting the search rectangle
extended left/above the widget, joined by spaces and stripped
(`LABEL_SEARCH_PAD = 20`). -/
def labelNearWidget (p : PageFacts) (w : Widget) : Str :=
  let r := w.rect
  let search : Rect := ⟨r.x0 - 200, r.y0 - 40 - 20, r.x0 + (r.x1 - r.x0) + 10, r.y0 + 5⟩
  pyStrip (joinWith (str " ") ((p.blocks.filter (fun b => rectsIntersect search b.1)).map (fun b => b.2)))

/-- `_infer_field_class`: first matching class of the ordered table,
default "text"; the haystack joins the nonempty inputs and lowercases. -/
def inferFieldClass (name alt label : Str) : Str :=
  let hay := pyLower (joinWith (str " ") ([name, alt, label].filter (fun s => s ≠ [])))
  match fieldClassPatterns.find? (fun kp => reHas kp.2 hay) with
  | some kp => kp.1
  | none => str "text"

/-- Field classes that rule FMT-001 expects masked/validated. -/
def expectedMaskClasses : List Str :=
  [str "ssn", str "tin", str "ein", str "dob", str "date", str "phone", str "email",
   str "zip", str "state", str "routing", str "account", str "amount"]

/-- Field classes that rule REQ-001 expects required. -/
def expectedRequiredClasses : List Str :=
  [str "signature", str "dob", str "ssn", str "email", str "phone", str "zip",
   str "state", str "routing", str "account", str "amount"]

/-- The findings of `nigo_design_checks` for one widget (in rule order
REQ-001, FMT-001, SIG-002, COND-003). -/
def widgetFindings (pageNo : Nat) (p : PageFacts) (w : Widget) : List Finding :=
  let fname := pyStrip w.name
  let alt := pyStrip w.tooltip
  let label := labelNearWidget p w
  let fclass := inferFieldClass fname alt label
  let isReq := w.required
  let hasActions := w.hasActions
  let pageHasJs := p.pageActions || p.pageJS
  let displayName := if fname ≠ [] then fname else if alt ≠ [] then alt else str "(unnamed)"
  (if fclass ∈ expectedRequiredClasses ∧ ¬isReq then
    [⟨str "REQ-001", str "high", some pageNo, displayName, fclass,
      str "Field likely should be required but isn" ++ aposS ++ str "t.",
      str "Label=" ++ aposS ++ label.take 120 ++ aposS ++ str " name=" ++ aposS ++ fname ++ aposS⟩]
   else []) ++
  (if fclass ∈ expectedMaskClasses ∧ ¬(hasActions || pageHasJs) then
    [⟨str "FMT-001", str "medium", some pageNo, displayName, fclass,
      str "No input mask/validation detected for a high-risk field.",
      str "Class=" ++ fclass ++ str "; no field/page actions found."⟩]
   else []) ++
  (if fclass = str "signature" ∧ ¬reHas dateWordRE (pyLower label) then
    [⟨str "SIG-002", str "low", some pageNo, (if fname ≠ [] then fname else str "(signature)"), fclass,
      str "Signature likely needs an adjacent Date field.",
      str "Nearby label=" ++ aposS ++ label.take 120 ++ aposS⟩]
   else []) ++
  (if reHas beneficiaryRE (pyLower (label ++ str " " ++ alt ++ str " " ++ fname))
      ∧ ¬(pageHasJs || hasActions) then
    [⟨str "COND-003", str "medium", some pageNo, (if fname ≠ [] then fname else str "(beneficiary)"), fclass,
      str "Conditional area lacks visible logic; consider requiring SSN/DOB masks.",
      str "Label=" ++ aposS ++ label.take 120 ++ aposS⟩]
   else [])

/-- `nigo_design_checks` on a decoded document (pages numbered from 1).
The SYS-ERR catch-all of the source covers evaluation failures, which the
facts model has no way to raise. -/
def nigo_design_checks (facts : DocFacts) : List Finding :=
  ((facts.pages.enum.map (fun pi =>
    (pi.2.widgets.map (widgetFindings (pi.1 + 1) pi.2)).flatten)).flatten)

/-- The `SYS-ERR` informational finding that a failing check pass
produces. -/
def sysErrFinding (errText : Str) : Finding :=
  ⟨str "SYS-ERR", str "info", none, str "", str "",
   str "Analyzer error during NIGO checks.", errText⟩

/-! ### NIGO scoring (`calculate_nigo_score`) -/

/-- Per-finding weight: severity weight plus rule weight plus the 5-point
high-risk-class bonus. -/
def findingWeight (r : Finding) : ℤ :=
  sevWeight (pyLower r.severity) + ruleWeight r.rule_id
  + (if pyLower r.field_class ∈ highRiskFields then 5 else 0)

/-- Does a finding count toward the high-risk mask/required counter? -/
def isHighMaskReq (r : Finding) : Bool :=
  (r.rule_id == str "FMT-001" || r.rule_id == str "REQ-001")
  && decide (pyLower r.field_class ∈ highRiskFields)

/-- One iteration of the accumulation loop of `calculate_nigo_score`:
running score and high-risk mask/required counter. -/
def nigoStep (st : ℤ × ℕ) (r : Finding) : ℤ × ℕ :=
  (st.1 + findingWeight r, st.2 + (if isHighMaskReq r then 1 else 0))

/-- The accumulation loop of `calculate_nigo_score`. -/
def nigoLoop (risks : List Finding) : ℤ × ℕ :=
  risks.foldl nigoStep (0, 0)

/-- `calculate_nigo_score`: capped at 100; plus 10 when PII is present
and some REQ-001/FMT-001 finding touches a high-risk class. -/
def calculate_nigo_score (risks : List Finding) (pii : PiiFlags) : ℤ :=
  let st := nigoLoop risks
  let bonus : ℤ := if pii.any_pii ∧ 0 < st.2 then 10 else 0
  min (st.1 + bonus) 100

/-! ### Dependencies and deadlines -/

/-- One dependency hit: the match span truncated to 180 characters, its
stripped text, and the optional embedded form token (uppercased with
double spaces collapsed once). -/
def depOfSpan (low : Str) (sp : Nat × Nat) (rel : Str) : Dep :=
  let snippet := (pySlice low sp.1 sp.2).take 180
  let fid := match reFirst formTokenRE snippet with
    | some fsp => some (replaceDblSpace (pyUpper (pySlice snippet fsp.1 fsp.2)))
    | none => none
  ⟨rel, pyStrip snippet, fid⟩

/-- `detect_dependencies` before de-duplication. -/
def rawDependencies (text : Str) : List Dep :=
  let low := pyLower text
  (dependencyPatterns.map (fun rp =>
    (findAll rp.2 low).map (fun sp => depOfSpan low sp rp.1))).flatten

/-- De-duplicate by `(relation, form_id or hint)`, keeping first
occurrences. -/
def dedupDeps (l : List Dep) : List Dep :=
  (l.foldl (fun (st : List Dep × List (Str × Str)) d =>
    let key := (d.relation, match d.form_id with | some f => f | none => d.hint)
    if key ∈ st.2 then st else (st.1 ++ [d], st.2 ++ [key])) ([], [])).1

/-- `detect_dependencies`. -/
def detect_dependencies (text : Str) : List Dep :=
  if text = [] then [] else dedupDeps (rawDependencies text)

/-- `detect_deadlines`: all stripped match spans of the fixed pattern
list over the given text, as `sorted(set(...))`. -/
def detect_deadlines (text : Str) : List Str :=
  if text = [] then []
  else sortedSet ((deadlinePatterns.map (fun p =>
    (findAll p text).map (fun sp => pyStrip (pySlice text sp.1 sp.2)))).flatten)

/-! ### Third parties, entity, title -/

/-- `detect_third_parties`: matched roles in table order (minus core
signer terms, de-duplicated) and up to six evidence windows of 40
characters around each first match. -/
def detect_third_parties (text : Str) : List Str × List Str :=
  if text = [] then ([], [])
  else
    let low := pyLower text
    let hits := thirdPartyPatterns.filterMap (fun rp =>
      match reFirst rp.2 low with
      | some sp => some (rp.1, pyStrip (pySlice text (sp.1 - min sp.1 40) (min text.length (sp.2 + 40))))
      | none => none)
    let roles := (hits.map (fun h => h.1)).filter (fun r => r ∉ coreSignerTerms) |>.dedup
    (roles, (hits.map (fun h => h.2)).take 6)

/-- The ordered key-to-brand table of `extract_entity_name_financial`. -/
def entityDomainTable : List (Str × Str) :=
  [ (str "fidelity", str "Fidelity Investments"), (str "vanguard", str "Vanguard")
  , (str "schwab", str "Charles Schwab"), (str "tdameritrade", str "TD Ameritrade")
  , (str "morganstanley", str "Morgan Stanley"), (str "bofa", str "Bank of America")
  , (str "bankofamerica", str "Bank of America"), (str "wellsfargo", str "Wells Fargo")
  , (str "chase", str "JPMorgan Chase"), (str "usbank", str "U.S. Bank")
  , (str "pnc", str "PNC"), (str "cigna", str "Cigna"), (str "aetna", str "Aetna")
  , (str "uhc", str "UnitedHealthcare"), (str "gsa.gov", str "GSA")
  , (str "uscis.gov", str "USCIS"), (str "irs.gov", str "IRS"), (str "ssa.gov", str "SSA") ]

/-- `extract_entity_name_financial`: first key found in the lowercased
URL, else first key found in the text, else "Unknown Entity". -/
def extract_entity_name_financial (text url : Str) : Str :=
  match entityDomainTable.find? (fun kv => containsStr (pyLower url) kv.1) with
  | some kv => kv.2
  | none =>
    match entityDomainTable.find? (fun kv => containsStr text kv.1) with
    | some kv => kv.2
    | none => str "Unknown Entity"

/-- `extract_title`: metadata title if nonempty, else the first line of
the text longer than five characters (stripped, truncated to 120), else
"Unknown Form". -/
def extract_title (meta : List (Str × Str)) (text : Str) : Str :=
  match meta.find? (fun kv => kv.1 = str "title" ∧ kv.2 ≠ []) with
  | some kv => kv.2
  | none =>
    match (splitLines text).find? (fun line => 5 < (pyStrip line).length) with
    | some line => (pyStrip line).take 120
    | none => str "Unknown Form"

/-- De-duplication keeping first occurrences (Python `set`-guarded
append loops). -/
def keepFirst {α : Type} [DecidableEq α] (l : List α) : List α :=
  l.foldl (fun acc x => if x ∈ acc then acc else acc ++ [x]) []

/-- Decimal rendering of a natural number. -/
def natToStr (n : Nat) : Str := (Nat.repr n).data

/-! ### Host vs issuer (`host_domain_info`) -/

/-- The built-in issuer-to-domains table of `load_brand_config`. -/
def builtinBrands : List (Str × List Str) :=
  [ (str "Fidelity Investments", [str "fidelity.com", str "fmr.com"])
  , (str "Charles Schwab", [str "schwab.com", str "schwabcdn.com"])
  , (str "Vanguard", [str "vanguard.com"])
  , (str "JPMorgan Chase", [str "chase.com", str "jpmorganchase.com", str "jpmorgan.com"])
  , (str "Cigna", [str "cigna.com"])
  , (str "Aetna", [str "aetna.com"])
  , (str "UnitedHealthcare", [str "uhc.com", str "optum.com"])
  , (str "GSA", [str "gsa.gov"])
  , (str "USCIS", [str "uscis.gov"])
  , (str "IRS", [str "irs.gov", str "treasury.gov"])
  , (str "SSA", [str "ssa.gov"])
  , (str "U.S. Bank", [str "usbank.com"])
  , (str "PNC", [str "pnc.com"])
  , (str "Bank of America", [str "bankofamerica.com", str "bofa.com"])
  , (str "Morgan Stanley", [str "morganstanley.com"]) ]

/-- The scheme-separator scan of URL parsing: the part after the first
`://`. -/
def afterScheme : Str → Option Str
  | ':' :: '/' :: '/' :: rest => some rest
  | _ :: rest => afterScheme rest
  | [] => none

/-- `urlparse(url).netloc.lower()`: the authority after `://` up to the
next delimiter; empty when the URL has no scheme separator (as for the
local-file branch of `analyze_one`). -/
def netlocOf (url : Str) : Str :=
  match afterScheme url with
  | some rest => pyLower (rest.takeWhile (fun c => c ≠ '/' ∧ c ≠ '?' ∧ c ≠ '#'))
  | none => []

/-- The naive last-two-labels registrable root (the analyzer's fallback
when `tldextract` is unavailable; the optional dependency is modelled as
absent). -/
def hostRootOf (host : Str) : Str :=
  let parts := host.splitOn '.'
  if 2 ≤ parts.length then joinWith (str ".") (parts.drop (parts.length - 2)) else host

/-- The reverse `ROOT_TO_BRAND` index: the dictionary is built brand by
brand, so for a shared domain the last brand wins. -/
def rootToBrand (bm : List (Str × List Str)) (d : Str) : Option Str :=
  bm.foldl (fun acc b => if d ∈ b.2 then some b.1 else acc) none

/-- `KNOWN_CDNS`. -/
def knownCdns : List Str :=
  [str "blob.core.windows.net", str "azureedge.net", str "cloudfront.net",
   str "akamai", str "fastly", str "cdn."]

/-- `gov_brands`. -/
def govBrands : List Str := [str "GSA", str "USCIS", str "IRS", str "SSA"]

/-- Python falsy-or-"Unknown Entity" test on the issuer variable. -/
def unknownIssuer (s : Str) : Bool := s == [] || s == str "Unknown Entity"

/-- `brand.split()[0]`. -/
def firstWord (s : Str) : Str := (s.dropWhile isWsC).takeWhile (fun c => ¬ isWsC c)

/-- Issuer resolution state of `host_domain_info`. -/
structure IssuerRes where
  issuer : Str
  textHits : List Str
  metaHits : List Str
deriving DecidableEq

/-- The issuer-resolution passage of `host_domain_info`: text scan (first
matching brand, recorded and breaking), metadata scan (every match is
recorded, the first sets a still-unresolved issuer), then the reverse
root-domain lookup. -/
def resolveIssuer (entity text : Str) (meta : List (Str × Str))
    (bm : List (Str × List Str)) (hostRoot : Str) : IssuerRes :=
  let issuer0 := pyStrip entity
  let textStep :=
    if unknownIssuer issuer0 then
      match bm.find? (fun b => containsStr (pyLower text) (pyLower (firstWord b.1))) with
      | some b => (b.1, [b.1])
      | none => (issuer0, ([] : List Str))
    else (issuer0, [])
  let metaStep := meta.foldl (fun (st : Str × List Str) kv =>
    bm.foldl (fun (st : Str × List Str) b =>
      if containsStr (pyLower kv.2) (pyLower (firstWord b.1)) then
        ((if unknownIssuer st.1 then b.1 else st.1), st.2 ++ [b.1 ++ str "@" ++ kv.1])
      else st) st) (textStep.1, [])
  let issuer2 :=
    if unknownIssuer metaStep.1 then
      match rootToBrand bm hostRoot with
      | some b => b
      | none => metaStep.1
    else metaStep.1
  ⟨issuer2, textStep.2, metaStep.2⟩

/-- The lowercased de-duplicated domain set of the resolved issuer. -/
def issuerDomainsOf (bm : List (Str × List Str)) (issuer : Str) : List Str :=
  keepFirst ((((bm.find? (fun b => b.1 = issuer)).map (fun b => b.2)).getD []).map pyLower)

/-- Issuer domains matched by the host (substring) or equal to the host
root. -/
def matchedDomains (host hostRoot : Str) (issuerDomains : List Str) : List Str :=
  issuerDomains.filter (fun d => containsStr host d || d == hostRoot)

/-- The government-issuer-off-.gov condition. -/
def govOffTld (issuer host : Str) : Bool :=
  decide (issuer ∈ govBrands) && host != ([] : Str) && !containsStr host (str ".gov")

/-- The additive heuristic confidence before the government bonus:
+60 matched domain, +25 root-only match (shadowed by the matched test in
practice), +15 brand in text, +10 brand in metadata, -15 CDN host. -/
def hdHeurConf (host hostRoot : Str) (matched issuerDomains textHits metaHits : List Str) : ℤ :=
  (if matched ≠ [] then 60 else 0)
  + (if hostRoot ∈ issuerDomains ∧ matched = [] then 25 else 0)
  + (if textHits ≠ [] then 15 else 0)
  + (if metaHits ≠ [] then 10 else 0)
  + (if knownCdns.any (fun k => containsStr host k) then -15 else 0)

/-- `host_domain_info`. -/
def host_domain_info (url entity text : Str) (meta : List (Str × Str))
    (bm : List (Str × List Str)) : DomainTrust :=
  let host := netlocOf url
  let hostRoot := hostRootOf host
  let ir := resolveIssuer entity text meta bm hostRoot
  let issuer := ir.issuer
  let issuerDomains := issuerDomainsOf bm issuer
  let matched := matchedDomains host hostRoot issuerDomains
  let conf0 := hdHeurConf host hostRoot matched issuerDomains ir.textHits ir.metaHits
               + (if govOffTld issuer host then 10 else 0)
  let conf1 := max 0 (min 100 conf0)
  let mr : Bool × Str :=
    if 55 ≤ conf1 then
      if govOffTld issuer host then (true, str "Government issuer on non-.gov host.")
      else if matched = [] then (true, str "Host does not match issuer domains.")
      else (false, [])
    else (false, [])
  let final : Bool × Str × ℤ :=
    if rootToBrand bm hostRoot = some issuer then
      (false, str "Host root aligns with issuer.", max conf1 75)
    else (mr.1, mr.2, conf1)
  { host_domain := host
  , host_root := hostRoot
  , issuer_guess := if issuer = [] then str "Unknown" else issuer
  , issuer_domains_matched := matched
  , brand_text_hits := ir.textHits
  , brand_meta_hits := ir.metaHits
  , confidence := final.2.2
  , mismatch := final.1
  , reason := if final.2.1 ≠ [] then final.2.1
              else if final.1 then str "Mismatch" else str "OK" }

/-! ### Complexity scoring (`calculate_complexity`) -/

/-- `calculate_complexity`: the re-weighted additive complexity score,
computed over rationals (floats in the source) and truncated after the
100 cap. -/
def calculate_complexity (text : Str) (fields : FieldCounts) (pages : Nat)
    (sigs : SigAnalysis) (extra : Extra) : ℤ :=
  let score : ℚ := min ((pages : ℚ) * 2) 10
  let score := score + min ((fields.total : ℚ) * (3/10)) 15
  let score := score + (if 0 < sigs.signature_count then (4 : ℚ) else 0)
  let score := score + (if 0 < sigs.witness_signature_count then (10 : ℚ) else 0)
  let score := score + (if sigs.notarized = str "Yes" then (12 : ℚ) else 0)
  let score := score + (if containsStr text (str "attach") then (3 : ℚ) else 0)
  let score := score + (if extra.attachments_req ≠ [] then
                          min 8 (2 + 2 * (extra.attachments_req.length : ℚ)) else 0)
  let score := score + (if extra.has_js then (4 : ℚ) else 0)
  let score := score + (if extra.has_js ∧ 2 ≤ extra.radio_groups then (3 : ℚ) else 0)
  let score := score + min 18 (3 * ((keepFirst extra.roles).length : ℚ))
  let score := score + (if 3 ≤ extra.third_party_count then (12 : ℚ)
                        else if extra.third_party_count = 2 then 8
                        else if extra.third_party_count = 1 then 4 else 0)
  let score := score + (if [str "Physician", str "Attorney", str "Financial Advisor"].any
                            (fun r => r ∈ extra.third_party_roles) then (4 : ℚ) else 0)
  -- PII weights; the source also consults a key "routing" that the PII
  -- detector never produces, so that weight can never fire.
  let score := score + (if extra.pii.ssn then (3 : ℚ) else 0)
  let score := score + (if extra.pii.dob then (2 : ℚ) else 0)
  let score := score + (if extra.pii.acct then (3 : ℚ) else 0)
  let score := score + (if extra.pii.email then (1 : ℚ) else 0)
  let score := score + (if extra.pii.phone then (1 : ℚ) else 0)
  let score := score + (if extra.pii.addr then (1 : ℚ) else 0)
  let score := score + (if extra.pii.tin then (2 : ℚ) else 0)
  let score := score + (if extra.pii.ein then (2 : ℚ) else 0)
  let score := score + (if 1 ≤ extra.radio_groups then
                          min 6 (2 + 1 * (extra.radio_groups : ℚ)) else 0)
  let score := score + (if 30 ≤ extra.gfx.drawings_per_page then (4 : ℚ)
                        else if 15 ≤ extra.gfx.drawings_per_page then 3
                        else if 5 ≤ extra.gfx.drawings_per_page then 1 else 0)
  let score := score + (if 2 ≤ extra.gfx.images_per_page then (3 : ℚ)
                        else if 1 ≤ extra.gfx.images_per_page then 1 else 0)
  let score := score + (if extra.xfa_hint then (4 : ℚ) else 0)
  let score := score + (if 1 ≤ extra.deadlines then (2 : ℚ) else 0)
  let score := score + (if 2 ≤ extra.dependencies then (3 : ℚ)
                        else if extra.dependencies = 1 then 1 else 0)
  let score := score + (if extra.domain_mismatch then (2 : ℚ) else 0)
  pyTrunc (min score 100)

/-! ### Industry classification -/

/-- `classify_industry_subvertical` (the `next(iter(...))` fallback of
the source is unreachable because every assigned subvertical is a member
of its industry's set). -/
def classify_industry_subvertical (url text : Str) : Str × Str :=
  let low := pyLower text
  let host := netlocOf url
  let hay := host ++ str " " ++ low
  let anyIn := fun (h : Str) (ks : List String) => ks.any (fun k => containsStr h (str k))
  let fin := anyIn hay ["fidelity", "vanguard", "schwab", "ameritrade", "morgan stanley",
                        "us bank", "wells fargo", "chase", "pnc", "account", "beneficiary",
                        "ira", "401k", "brokerage"]
  let wealth := anyIn low ["custodian", "advisor", "wealth", "brokerage", "beneficiary",
                           "ira", "roth", "acat", "transfer of assets"]
  let banking := anyIn low ["ach", "routing number", "wire", "checking", "savings",
                            "loan", "mortgage", "account number"]
  let pncIns := anyIn low ["policy", "claim", "loss", "insured", "adjuster", "premium",
                           "p&c", "auto policy"]
  let health := anyIn hay ["cigna", "aetna", "unitedhealth", "uhc", "hipaa",
                           "prior authorization", "member id"]
  let payer := anyIn low ["claim", "prior authorization", "eligibility", "member id",
                          "edi 837", "payer"]
  let provider := anyIn low ["provider", "npi", "superbill", "encounter", "progress note"]
  let lfs := anyIn low ["informed consent", "clinical trial", "irb", "sponsor", "investigational"]
  let pub := anyIn hay [".gov", "gsa", "uscis", "irs", "ssa", "state of", "city of",
                        "county of", "school district"]
  let federal := anyIn hay ["gsa", ".gov", "irs", "ssa", "uscis", "va.gov", "dot.gov"]
                 || containsStr low (str "federal")
  let sled := anyIn low ["state of", "county", "city of", "municipal", "township",
                         "dmv", "permit", "licensure"]
              || anyIn host ["wa.gov", "ca.gov", "az.gov", "ny.gov"]
  let edu := anyIn low ["school", "university", "college", "district", "k-12", "education"]
  let nfp := anyIn low ["501(c)", "nonprofit", "not-for-profit", "charitable"]
  if fin then
    (str "Financial Services",
     if wealth then str "Wealth Management"
     else if pncIns then str "P&C Insurance"
     else if banking then str "Banking" else str "Wealth Management")
  else if health then
    (str "Healthcare",
     if payer then str "Payer"
     else if provider then str "Provider"
     else if lfs then str "Life Sciences" else str "Payer")
  else if pub then
    (str "Public Sector",
     if federal then str "Federal Government"
     else if edu then str "Education"
     else if sled then str "State & Local"
     else if nfp then str "Not-for-Profit" else str "State & Local")
  else ([], [])

/-! ### The aggregate result and `analyze_one` -/

/-- The success record of `analyze_one` (the `res` dictionary). -/
structure SuccessResult where
  url : Str
  analysis_id : Str
  timestamp : Str
  entity_name : Str
  form_title : Str
  page_count : Nat
  field_count : Nat
  text_fields : Nat
  checkboxes : Nat
  dropdowns : Nat
  radio_groups : Nat
  signatures : Nat
  attachment_count : Nat
  attachment_requirements : List Str
  conditional_logic : Str
  multistep_logic_hint : Bool
  signature_analysis : SigAnalysis
  roles_required : List Str
  third_party_roles : List Str
  third_party_evidence : List Str
  pii_fields : PiiFlags
  images_per_page : ℚ
  drawings_per_page : ℚ
  text_density : ℚ
  xfa_like : Bool
  nigo_risks : List Finding
  nigo_score : ℤ
  dependencies : List Dep
  deadlines : List Str
  host_domain_check : DomainTrust
  industry : Str
  subvertical : Str
  complexity_score : ℤ
  status : Str
  special_requirements_summary : List Str
deriving DecidableEq

/-- `summarize_special_requirements` over the assembled record. -/
def summarize_special_requirements (r : SuccessResult) : List Str :=
  let sig := r.signature_analysis
  let bullets :=
    (if sig.notarized = str "Yes" then [str "Requires notarization"] else [])
    ++ (if 0 < sig.witness_signature_count then [str "Requires witness signature"] else [])
    ++ (if 0 < r.signatures ∨ 0 < sig.signature_count then
          [natToStr (max r.signatures sig.signature_count) ++ str " signature field(s)"] else [])
    ++ (if 0 < r.attachment_count ∨ r.attachment_requirements ≠ [] then
          [str "Requires supporting attachments"] else [])
    ++ (if r.conditional_logic = str "Yes" ∨ r.multistep_logic_hint then
          [str "Conditional/JavaScript logic present"] else [])
    ++ (if r.pii_fields.any_pii then [str "Collects sensitive PII"] else [])
    ++ (if 2 ≤ r.radio_groups then [str "Multiple radio groups (branching choices)"] else [])
    ++ (if 8 ≤ r.page_count then [str "Long form (8+ pages)"] else [])
    ++ (if r.deadlines ≠ [] then [str "Mentions submission timing/deadlines"] else [])
    ++ (if r.dependencies ≠ [] then [str "References other required forms"] else [])
    ++ (if r.host_domain_check.mismatch then [str "Hosted on domain different from issuer"] else [])
    ++ (if r.third_party_roles ≠ [] then
          [str "Involves third party: " ++ joinWith (str ", ") r.third_party_roles] else [])
  keepFirst bullets

/-- The success path of `analyze_one` on a decoded document: every
detector runs on the extracted facts, roles and findings are adjusted
(ROLE-001, THRD-001), both scores are computed, and the record is
assembled.  `rid` and `ts` stand for the generated `analysis_id` and
wall-clock timestamp. -/
def analyzeOne (bm : List (Str × List Str)) (url rid ts : Str) (facts : DocFacts) : SuccessResult :=
  let text := extractText facts.rawText
  let meta := facts.meta
  let pages := facts.pages.length
  let fields := count_fields facts
  let sigs := analyze_signatures facts text
  let attachC := facts.embeddedFiles
  let hasJs := detect_js facts
  let pii := detect_pii text
  let attachR := detect_attachment_requirements text
  let roles0 := detect_roles text
  let radios := count_radio_groups facts
  let gfx := page_graphics_stats facts
  let xfa := xfa_like_hint text meta
  let nigo0 := nigo_design_checks facts
  let deps := detect_dependencies text
  let dls := detect_deadlines text
  let entity := extract_entity_name_financial text url
  let domain := host_domain_info url entity text meta bm
  let isx := classify_industry_subvertical url text
  let tp := detect_third_parties text
  let roleStep :=
    if 0 < sigs.signature_count ∧ roles0 = [] then
      ([str "Unspecified Signer"],
       [(⟨str "ROLE-001", str "medium", none, str "", str "signature",
         str "Signature line(s) without role attribution (e.g., Applicant, Co-owner, Notary).",
         str "Detected " ++ natToStr sigs.signature_count ++ str " signature(s) with no labeled role."⟩ : Finding)])
    else (roles0, [])
  let roles := roleStep.1
  let nigo1 := nigo0 ++ roleStep.2
  let nigo2 := nigo1 ++ (if tp.1 ≠ [] then
      [(⟨str "THRD-001", str "medium", none, str "", str "third_party",
        str "Third-party involvement requires coordination (scheduling, credential validation).",
        str "Detected third-party role(s): " ++ joinWith (str ", ") tp.1⟩ : Finding)] else [])
  let nigoScore := calculate_nigo_score nigo2 pii
  let extra : Extra :=
    ⟨pii, roles, attachR, radios, gfx, xfa, hasJs = str "Yes",
     dls.length, deps.length, domain.mismatch, tp.1.length, tp.1⟩
  let res : SuccessResult :=
    { url := url
    , analysis_id := rid
    , timestamp := ts
    , entity_name := entity
    , form_title := extract_title meta text
    , page_count := pages
    , field_count := fields.total
    , text_fields := fields.text_fields
    , checkboxes := fields.checkboxes
    , dropdowns := fields.dropdowns
    , radio_groups := radios
    , signatures := fields.signatures
    , attachment_count := attachC
    , attachment_requirements := attachR
    , conditional_logic := hasJs
    , multistep_logic_hint := hasJs = str "Yes" ∧ 2 ≤ radios
    , signature_analysis := sigs
    , roles_required := roles
    , third_party_roles := tp.1
    , third_party_evidence := tp.2
    , pii_fields := pii
    , images_per_page := gfx.images_per_page
    , drawings_per_page := gfx.drawings_per_page
    , text_density := gfx.text_density
    , xfa_like := xfa
    , nigo_risks := nigo2
    , nigo_score := nigoScore
    , dependencies := deps
    , deadlines := dls
    , host_domain_check := domain
    , industry := isx.1
    , subvertical := isx.2
    , complexity_score := calculate_complexity text fields pages sigs extra
    , status := str "success"
    , special_requirements_summary := [] }
  { res with special_requirements_summary := summarize_special_requirements res }

/-- The error record of `analyze_one`: only locator, status, message,
and analysis id — nothing else is populated. -/
structure ErrorResult where
  url : Str
  status : Str
  error : Str
  analysis_id : Str
deriving DecidableEq

/-- A finished analysis: a full success record or the bare error
record. -/
inductive AnalyzeResult where
  | ok (r : SuccessResult) : AnalyzeResult
  | err (e : ErrorResult) : AnalyzeResult
deriving DecidableEq

/-- `analyze_one` with its try/except shell: a fatal decode failure
yields the bare error record, success runs the pipeline. -/
def analyzeTop (bm : List (Str × List Str)) (item rid ts : Str)
    (dec : Except Str DocFacts) : AnalyzeResult :=
  match dec with
  | .error e => .err ⟨item, str "error", e, rid⟩
  | .ok facts => .ok (analyzeOne bm item rid ts facts)

/-- The `nigo_score` key, when present. -/
def nigoScoreOf : AnalyzeResult → Option ℤ
  | .ok r => some r.nigo_score
  | .err _ => none

/-- The `complexity_score` key, when present. -/
def complexityScoreOf : AnalyzeResult → Option ℤ
  | .ok r => some r.complexity_score
  | .err _ => none

/-- The `status` key. -/
def statusOf : AnalyzeResult → Str
  | .ok r => r.status
  | .err e => e.status

/-- The `error` key, when present. -/
def errorOf : AnalyzeResult → Option Str
  | .ok _ => none
  | .err e => some e.error

/-- The `nigo_risks` key, when present. -/
def findingsOf : AnalyzeResult → Option (List Finding)
  | .ok r => some r.nigo_risks
  | .err _ => none

/-- The `field_count` key, when present. -/
def fieldCountOf : AnalyzeResult → Option Nat
  | .ok r => some r.field_count
  | .err _ => none

/-! ## Helper lemmas -/

theorem sevWeight_nonneg (s : Str) : 0 ≤ sevWeight s := by
  unfold sevWeight; split_ifs <;> norm_num

theorem ruleWeight_nonneg (s : Str) : 0 ≤ ruleWeight s := by
  unfold ruleWeight; split_ifs <;> norm_num

theorem findingWeight_nonneg (r : Finding) : 0 ≤ findingWeight r := by
  unfold findingWeight
  have h1 := sevWeight_nonneg (pyLower r.severity)
  have h2 := ruleWeight_nonneg r.rule_id
  have h3 : (0 : ℤ) ≤ if pyLower r.field_class ∈ highRiskFields then 5 else 0 := by
    split_ifs <;> norm_num
  linarith

theorem nigoFold_fst_ge (l : List Finding) (a : ℤ) (c : ℕ) :
    a ≤ (l.foldl nigoStep (a, c)).1 := by
  induction l generalizing a c with
  | nil => simp
  | cons r t ih =>
    simp only [List.foldl_cons]
    calc a ≤ a + findingWeight r := by linarith [findingWeight_nonneg r]
    _ ≤ _ := ih _ _

theorem nigoLoop_fst_nonneg (risks : List Finding) : 0 ≤ (nigoLoop risks).1 :=
  nigoFold_fst_ge risks 0 0

theorem nigoLoop_append (risks : List Finding) (f : Finding) :
    nigoLoop (risks ++ [f]) = nigoStep (nigoLoop risks) f := by
  unfold nigoLoop
  rw [List.foldl_append]
  rfl

theorem pyTrunc_bounds (q : ℚ) (h0 : 0 ≤ q) (h1 : q ≤ 100) :
    0 ≤ pyTrunc q ∧ pyTrunc q ≤ 100 := by
  unfold pyTrunc
  rw [if_pos h0]
  refine ⟨Int.floor_nonneg.mpr h0, ?_⟩
  have h2 : ⌊q⌋ ≤ ⌊(100 : ℚ)⌋ := Int.floor_le_floor h1
  have h3 : ⌊(100 : ℚ)⌋ = 100 := by norm_num
  omega

/-! ## Claims -/

/-- Claim C1: for every findings list, PII-flag map, field-count map,
page count, signature profile, and extra-parameter map given to the
scoring functions, `0 ≤ calculate_nigo_score ≤ 100` and
`0 ≤ calculate_complexity ≤ 100`. -/
theorem nigo_and_complexity_scores_bounded :
    (∀ (risks : List Finding) (pii : PiiFlags),
       0 ≤ calculate_nigo_score risks pii ∧ calculate_nigo_score risks pii ≤ 100)
  ∧ (∀ (text : Str) (fields : FieldCounts) (pages : Nat) (sigs : SigAnalysis) (extra : Extra),
       0 ≤ calculate_complexity text fields pages sigs extra
       ∧ calculate_complexity text fields pages sigs extra ≤ 100) := by
  constructor
  · intro risks pii
    unfold calculate_nigo_score
    have hb : (0 : ℤ) ≤ if pii.any_pii ∧ 0 < (nigoLoop risks).2 then 10 else 0 := by
      split_ifs <;> norm_num
    have hs := nigoLoop_fst_nonneg risks
    exact ⟨le_min (by linarith) (by norm_num), min_le_right _ _⟩
  · intro text fields pages sigs extra
    simp only [calculate_complexity]
    apply pyTrunc_bounds
    case h1 => exact min_le_right _ _
    case h0 =>
      refine le_min ?_ (by norm_num)
      repeat' apply add_nonneg
      all_goals try positivity
      all_goals split_ifs <;> positivity

/-- Claim C10: appending any finding never decreases the NIGO score, and
appending the SYS-ERR informational finding leaves it unchanged. -/
theorem nigo_score_monotone_in_findings :
    (∀ (risks : List Finding) (pii : PiiFlags) (f : Finding),
       calculate_nigo_score risks pii ≤ calculate_nigo_score (risks ++ [f]) pii)
  ∧ (∀ (risks : List Finding) (pii : PiiFlags) (ev : Str),
       calculate_nigo_score (risks ++ [sysErrFinding ev]) pii = calculate_nigo_score risks pii) := by
  constructor
  · intro risks pii f
    unfold calculate_nigo_score
    rw [nigoLoop_append]
    apply min_le_min _ le_rfl
    have hw := findingWeight_nonneg f
    have hstep1 : (nigoStep (nigoLoop risks) f).1 = (nigoLoop risks).1 + findingWeight f := rfl
    have hstep2 : (nigoStep (nigoLoop risks) f).2
        = (nigoLoop risks).2 + (if isHighMaskReq f then 1 else 0) := rfl
    rw [hstep1, hstep2]
    have hmono : (nigoLoop risks).2 ≤ (nigoLoop risks).2 + (if isHighMaskReq f then 1 else 0) := by
      split_ifs <;> omega
    have hb : (if pii.any_pii ∧ 0 < (nigoLoop risks).2 then (10 : ℤ) else 0)
        ≤ (if pii.any_pii ∧ 0 < (nigoLoop risks).2 + (if isHighMaskReq f then 1 else 0)
           then (10 : ℤ) else 0) := by
      by_cases h1 : pii.any_pii ∧ 0 < (nigoLoop risks).2
      · rw [if_pos h1, if_pos ⟨h1.1, lt_of_lt_of_le h1.2 hmono⟩]
      · rw [if_neg h1]
        split_ifs <;> norm_num
    linarith
  · intro risks pii ev
    unfold calculate_nigo_score
    rw [nigoLoop_append]
    have h1 : findingWeight (sysErrFinding ev) = 0 := rfl
    have h2 : isHighMaskReq (sysErrFinding ev) = false := rfl
    simp [nigoStep, h1, h2]

/-! Helper lemmas for claim C6 (text normalization). -/

theorem charOfNat_toNat (n : Nat) (h : n < 55296) : (Char.ofNat n).toNat = n := by
  unfold Char.ofNat
  split
  · rfl
  · rename_i hh
    exact absurd (Or.inl h) hh

/-- Lowercasing leaves no ASCII uppercase letter behind. -/
theorem toLowerC_not_upper (c : Char) : isUpperC (toLowerC c) = false := by
  unfold toLowerC isUpperC
  split
  · rename_i h
    rw [charOfNat_toNat _ (by omega)]
    have h2 : ¬(c.toNat + 32 ≤ 90) := by omega
    simp [h2]
  · rename_i h
    by_cases h1 : 65 ≤ c.toNat
    · have h2 : ¬(c.toNat ≤ 90) := fun h2 => h ⟨h1, h2⟩
      simp [h2]
    · simp [h1]

/-- `dhGo` preserves any character predicate that holds for the hyphen:
every emitted character is a pending character, an input character, or a
hyphen. -/
theorem dhGo_pred (P : Char → Prop) (hdash : P '-') :
    ∀ (pend : Option (Char × Str)) (l : Str),
    (∀ c run, pend = some (c, run) → P c ∧ ∀ y ∈ run, P y) →
    (∀ y ∈ l, P y) →
    ∀ x ∈ dhGo pend l, P x := by
  intro pend l
  induction pend, l using dhGo.induct with
  | case1 =>
    intro _ _ x hx
    simp [dhGo] at hx
  | case2 d =>
    intro _ hl x hx
    rw [dhGo] at hx
    simp only [List.mem_singleton] at hx
    exact hx ▸ hl d (by simp)
  | case3 d e rest hc ih =>
    intro _ hl x hx
    rw [dhGo, if_pos hc] at hx
    refine ih ?_ ?_ x hx
    · rintro c run hp
      cases hp
      exact ⟨hl d (by simp), by simp⟩
    · intro y hy
      exact hl y (by simp [hy])
  | case4 d e rest hc ih =>
    intro _ hl x hx
    rw [dhGo, if_neg hc] at hx
    rcases List.mem_cons.mp hx with rfl | hx
    · exact hl x (by simp)
    · exact ih (fun c run h => Option.noConfusion h) (fun y hy => hl y (by simp [hy])) x hx
  | case5 c run =>
    intro hp _ x hx
    obtain ⟨hc, hrun⟩ := hp c run rfl
    simp only [dhGo, List.mem_cons] at hx
    rcases hx with rfl | rfl | hx
    · exact hc
    · exact hdash
    · exact hrun x hx
  | case6 c run d hws =>
    intro hp hl x hx
    obtain ⟨hc, hrun⟩ := hp c run rfl
    rw [dhGo, if_pos hws] at hx
    simp only [List.mem_cons, List.mem_append, List.mem_singleton] at hx
    rcases hx with rfl | rfl | hx | hx
    · exact hc
    · exact hdash
    · exact hrun x hx
    · rcases hx with rfl | hx
      · exact hl x (by simp)
      · simp at hx
  | case7 c run d hws hcond =>
    intro hp hl x hx
    obtain ⟨hc, hrun⟩ := hp c run rfl
    rw [dhGo, if_neg hws, if_pos hcond] at hx
    simp only [List.mem_cons, List.mem_singleton] at hx
    rcases hx with rfl | hx
    · exact hc
    · rcases hx with rfl | hx
      · exact hl x (by simp)
      · simp at hx
  | case8 c run d hws hcond =>
    intro hp hl x hx
    obtain ⟨hc, hrun⟩ := hp c run rfl
    rw [dhGo, if_neg hws, if_neg hcond] at hx
    simp only [List.mem_cons, List.mem_append, List.mem_singleton] at hx
    rcases hx with rfl | rfl | hx | hx
    · exact hc
    · exact hdash
    · exact hrun x hx
    · rcases hx with rfl | hx
      · exact hl x (by simp)
      · simp at hx
  | case9 c run d e rest hws ih =>
    intro hp hl x hx
    obtain ⟨hc, hrun⟩ := hp c run rfl
    rw [dhGo, if_pos hws] at hx
    refine ih ?_ (fun y hy => hl y (by simp [hy])) x hx
    rintro c2 run2 hp2
    cases hp2
    refine ⟨hc, ?_⟩
    intro y hy
    rcases List.mem_append.mp hy with hy | hy
    · exact hrun y hy
    · simp only [List.mem_singleton] at hy
      exact hy ▸ hl d (by simp)
  | case10 c run d e rest hws hcond ih =>
    intro hp hl x hx
    obtain ⟨hc, hrun⟩ := hp c run rfl
    rw [dhGo, if_neg hws, if_pos hcond] at hx
    rcases List.mem_cons.mp hx with rfl | hx
    · exact hc
    · rcases List.mem_cons.mp hx with rfl | hx
      · exact hl x (by simp)
      · exact ih (fun c2 run2 h => Option.noConfusion h)
          (fun y hy => hl y (by simp [hy])) x hx
  | case11 c run d e rest hws hcond hc2 ih =>
    intro hp hl x hx
    obtain ⟨hc, hrun⟩ := hp c run rfl
    rw [dhGo, if_neg hws, if_neg hcond, if_pos hc2] at hx
    rcases List.mem_append.mp hx with hx | hx
    · simp only [List.mem_cons] at hx
      rcases hx with rfl | rfl | hx
      · exact hc
      · exact hdash
      · exact hrun x hx
    · refine ih ?_ (fun y hy => hl y (by simp [hy])) x hx
      rintro c2 run2 hp2
      cases hp2
      exact ⟨hl d (by simp), by simp⟩
  | case12 c run d e rest hws hcond hc2 ih =>
    intro hp hl x hx
    obtain ⟨hc, hrun⟩ := hp c run rfl
    rw [dhGo, if_neg hws, if_neg hcond, if_neg hc2] at hx
    rcases List.mem_append.mp hx with hx | hx
    · simp only [List.mem_cons] at hx
      rcases hx with rfl | rfl | hx
      · exact hc
      · exact hdash
      · exact hrun x hx
    · rcases List.mem_cons.mp hx with rfl | hx
      · exact hl x (by simp)
      · exact ih (fun c2 run2 h => Option.noConfusion h)
          (fun y hy => hl y (by simp [hy])) x hx

/-- `dehyphen` preserves any character predicate holding for hyphens. -/
theorem dehyphen_pred (P : Char → Prop) (hdash : P '-') (l : Str)
    (hl : ∀ y ∈ l, P y) : ∀ x ∈ dehyphen l, P x :=
  dhGo_pred P hdash none l (fun _ _ h => Option.noConfusion h) hl

/-- `cnGo` emits only accumulator characters, input characters, and
spaces. -/
theorem cnGo_mem : ∀ (l run : Str), ∀ x ∈ cnGo run l, x ∈ run ∨ x ∈ l ∨ x = ' ' := by
  intro l
  induction l with
  | nil =>
    intro run x hx
    rw [cnGo, flushNl] at hx
    split at hx
    · simp only [List.mem_singleton] at hx
      right; right; exact hx
    · left; exact hx
  | cons c rest ih =>
    intro run x hx
    rw [cnGo] at hx
    split at hx
    · rcases ih (run ++ [c]) x hx with h | h | h
      · rcases List.mem_append.mp h with h | h
        · left; exact h
        · right; left; simp only [List.mem_singleton] at h; simp [h]
      · right; left; exact List.mem_cons_of_mem _ h
      · right; right; exact h
    · rcases List.mem_append.mp hx with h | h
      · rw [flushNl] at h
        split at h
        · simp only [List.mem_singleton] at h
          right; right; exact h
        · left; exact h
      · simp only [List.mem_cons] at h
        rcases h with rfl | h
        · right; left; exact List.mem_cons_self _ _
        · rcases ih [] x h with h | h | h
          · simp at h
          · right; left; exact List.mem_cons_of_mem _ h
          · right; right; exact h

/-- `collapseNl` emits only input characters and spaces. -/
theorem collapseNl_mem (l : Str) : ∀ c ∈ collapseNl l, c ∈ l ∨ c = ' ' := by
  intro x hx
  rcases cnGo_mem l [] x hx with h | h | h
  · simp at h
  · left; exact h
  · right; exact h

/-- `cwGo` emits only input characters and spaces. -/
theorem cwGo_mem : ∀ (l : Str) (b : Bool), ∀ x ∈ cwGo b l, x ∈ l ∨ x = ' ' := by
  intro l
  induction l with
  | nil => intro b x hx; simp [cwGo] at hx
  | cons c rest ih =>
    intro b x hx
    cases b with
    | true =>
      rw [cwGo] at hx
      split at hx
      · rcases ih true x hx with h | h
        · left; exact List.mem_cons_of_mem _ h
        · right; exact h
      · simp only [List.mem_cons] at hx
        rcases hx with rfl | hx
        · left; exact List.mem_cons_self _ _
        · rcases ih false x hx with h | h
          · left; exact List.mem_cons_of_mem _ h
          · right; exact h
    | false =>
      rw [cwGo] at hx
      split at hx
      · split at hx
        · split at hx
          · simp only [List.mem_cons] at hx
            rcases hx with rfl | hx
            · right; rfl
            · rcases ih true x hx with h | h
              · left; exact List.mem_cons_of_mem _ h
              · right; exact h
          · simp only [List.mem_cons] at hx
            rcases hx with rfl | hx
            · left; exact List.mem_cons_self _ _
            · rcases ih false x hx with h | h
              · left; exact List.mem_cons_of_mem _ h
              · right; exact h
        · simp only [List.mem_singleton] at hx
          left; simp [hx]
      · simp only [List.mem_cons] at hx
        rcases hx with rfl | hx
        · left; exact List.mem_cons_self _ _
        · rcases ih false x hx with h | h
          · left; exact List.mem_cons_of_mem _ h
          · right; exact h

/-- `collapseWs` emits only input characters and spaces. -/
theorem collapseWs_mem (l : Str) : ∀ c ∈ collapseWs l, c ∈ l ∨ c = ' ' :=
  fun c hc => cwGo_mem l false c hc

/-- In skipping mode the first emitted character is never whitespace. -/
theorem cwGo_true_head : ∀ (l : Str) (e : Char),
    (cwGo true l).head? = some e → isWsC e = false := by
  intro l
  induction l with
  | nil => simp [cwGo]
  | cons c rest ih =>
    intro e he
    rw [cwGo] at he
    split at he
    · exact ih e he
    · rename_i hc
      simp only [List.head?_cons, Option.some.injEq] at he
      rw [← he]
      simpa using hc

/-- In normal mode over input with a non-whitespace head, the first
emitted character is that head (hence not whitespace). -/
theorem cwGo_false_head (l : Str)
    (h : ∀ d, l.head? = some d → isWsC d = false) :
    ∀ e, (cwGo false l).head? = some e → isWsC e = false := by
  cases l with
  | nil => simp [cwGo]
  | cons c t =>
    have hc : isWsC c = false := h c rfl
    intro e he
    rw [cwGo, if_neg (by simp [hc])] at he
    simp only [List.head?_cons, Option.some.injEq] at he
    rw [← he]
    exact hc

/-- After `cwGo`, no two adjacent characters are both whitespace. -/
theorem cwGo_chain : ∀ (l : Str) (b : Bool),
    List.Chain' (fun a b => isWsC a = false ∨ isWsC b = false) (cwGo b l) := by
  intro l
  induction l with
  | nil => intro b; simp [cwGo]
  | cons c rest ih =>
    intro b
    cases b with
    | true =>
      rw [cwGo]
      split
      · exact ih true
      · rename_i hc
        rw [List.chain'_cons']
        exact ⟨fun b _ => Or.inl (by simpa using hc), ih false⟩
    | false =>
      rw [cwGo]
      split
      · rename_i hc
        cases hrest : rest.head? with
        | none =>
          cases rest with
          | nil => simp
          | cons d t => simp at hrest
        | some d =>
          cases rest with
          | nil => simp at hrest
          | cons d0 t =>
            simp only [List.head?_cons, Option.some.injEq] at hrest
            subst hrest
            simp only
            split
            · rename_i hd
              rw [List.chain'_cons']
              refine ⟨?_, ih true⟩
              intro e he
              right
              exact cwGo_true_head _ e he
            · rename_i hd
              rw [List.chain'_cons']
              refine ⟨?_, ih false⟩
              intro e he
              right
              refine cwGo_false_head _ ?_ e he
              intro d' hd'
              simp only [List.head?_cons, Option.some.injEq] at hd'
              rw [← hd']
              simpa using hd
      · rename_i hc
        rw [List.chain'_cons']
        exact ⟨fun b _ => Or.inl (by simpa using hc), ih false⟩

/-- After `collapseWs`, no two adjacent characters are both
whitespace. -/
theorem collapseWs_chain (l : Str) :
    List.Chain' (fun a b => isWsC a = false ∨ isWsC b = false) (collapseWs l) :=
  cwGo_chain l false

/-- Claim C6: text normalization is total by construction, maps empty
input to empty output, leaves no ASCII uppercase character in the
pipeline's normalized text, and leaves no run of two adjacent whitespace
characters. -/
theorem text_normalization_properties :
    extractText (str "") = []
    ∧ (∀ raw : Str, ∀ c ∈ extractText raw, isUpperC c = false)
    ∧ (∀ raw : Str,
        List.Chain' (fun a b => isWsC a = false ∨ isWsC b = false) (extractText raw)) := by
  refine ⟨rfl, ?_, ?_⟩
  · intro raw c hc
    unfold extractText normalizeTextForRules at hc
    split at hc
    · simp at hc
    · rcases collapseWs_mem _ c hc with h1 | h1
      · rcases collapseNl_mem _ c h1 with h2 | h2
        · refine dehyphen_pred (fun x => isUpperC x = false) rfl (pyLower raw) ?_ c h2
          intro y hy
          unfold pyLower at hy
          rcases List.mem_map.mp hy with ⟨d, _, hd⟩
          rw [← hd]
          exact toLowerC_not_upper d
        · rw [h2]; rfl
      · rw [h1]; rfl
  · intro raw
    unfold extractText normalizeTextForRules
    split
    · simp
    · exact collapseWs_chain _

/-- Claim C3: the layout signature estimate enters `signature_count`
exactly when the explicit widget count and the digital count are both
zero; otherwise the count is just widgets plus digital. -/
theorem sig_layout_fallback_gating (facts : DocFacts) (text : Str) :
    (analyze_signatures facts text).signature_count
      = (if widgetSigCount facts + digSigCount facts = 0
         then estimateTextSignatures facts text
         else widgetSigCount facts + digSigCount facts) := by
  simp only [analyze_signatures]
  by_cases h : widgetSigCount facts + digSigCount facts = 0
  · simp [h]
  · simp [h]

/-! Helper lemmas for claim C7 (sortedness of the deadline set). -/

theorem mem_insSorted (x : Str) (l : List Str) :
    ∀ z ∈ insSorted x l, z = x ∨ z ∈ l := by
  induction l with
  | nil => simp [insSorted]
  | cons y ys ih =>
    intro z hz
    rw [insSorted] at hz
    split_ifs at hz with h1 h2
    · rcases List.mem_cons.mp hz with rfl | hz
      · left; rfl
      · right; exact hz
    · right; exact hz
    · rcases List.mem_cons.mp hz with rfl | hz
      · right; exact List.mem_cons_self _ _
      · rcases ih z hz with hz | hz
        · left; exact hz
        · right; exact List.mem_cons_of_mem _ hz

theorem pairwise_insSorted (x : Str) (l : List Str) (h : l.Pairwise (· < ·)) :
    (insSorted x l).Pairwise (· < ·) := by
  induction l with
  | nil => simp [insSorted]
  | cons y ys ih =>
    rw [List.pairwise_cons] at h
    obtain ⟨hy, hys⟩ := h
    rw [insSorted]
    split_ifs with h1 h2
    · rw [List.pairwise_cons]
      refine ⟨?_, ?_⟩
      · intro z hz
        rcases List.mem_cons.mp hz with rfl | hz
        · exact h1
        · exact lt_trans h1 (hy z hz)
      · rw [List.pairwise_cons]
        exact ⟨hy, hys⟩
    · rw [List.pairwise_cons]
      exact ⟨hy, hys⟩
    · have hyx : y < x := by
        rcases lt_trichotomy x y with h | h | h
        · exact absurd h h1
        · exact absurd h h2
        · exact h
      rw [List.pairwise_cons]
      refine ⟨?_, ih hys⟩
      intro z hz
      rcases mem_insSorted x ys z hz with rfl | hz
      · exact hyx
      · exact hy z hz

theorem pairwise_sortedSet (l : List Str) : (sortedSet l).Pairwise (· < ·) := by
  suffices h : ∀ (acc : List Str), acc.Pairwise (· < ·) →
      (l.foldl (fun a x => insSorted x a) acc).Pairwise (· < ·) by
    exact h [] (by simp)
  induction l with
  | nil => intro acc ha; simpa
  | cons x t ih =>
    intro acc ha
    exact ih _ (pairwise_insSorted x acc ha)

/-- Claim C7, counterexample input: a document whose raw text carries the
deadline phrase in capitals. -/
def c7Facts : DocFacts :=
  { rawText := str "Respond NO LATER THAN noon"
  , meta := []
  , pages := []
  , docActions := false
  , docJS := false
  , digitalSigs := none
  , embeddedFiles := 0 }

/-- Claim C7, counterexample: the pipeline hands the deadline extractor
the lowercased normalized text, not the original-case raw text — the
resulting span is lowercase, while matching the raw text (as the claim
states) would return the original-case span. -/
theorem deadline_extractor_lowercase_counterexample :
    (analyzeOne builtinBrands (str "file0") (str "rid0") (str "ts0") c7Facts).deadlines
      = [str "no later than"]
    ∧ detect_deadlines c7Facts.rawText = [str "NO LATER THAN"]
    ∧ (analyzeOne builtinBrands (str "file0") (str "rid0") (str "ts0") c7Facts).deadlines
        ≠ detect_deadlines c7Facts.rawText := by
  refine ⟨by decide, by decide, by decide⟩

/-- Claim C7 as amended: within the pipeline the deadline extractor runs
on the normalized, lowercased text (not the original-case raw text), and
for every input its output is strictly sorted (Python string order) with
no duplicates. -/
theorem deadline_extractor_amended :
    (∀ (bm : List (Str × List Str)) (url rid ts : Str) (facts : DocFacts),
       (analyzeOne bm url rid ts facts).deadlines = detect_deadlines (extractText facts.rawText))
  ∧ (∀ t : Str, (detect_deadlines t).Pairwise (· < ·) ∧ (detect_deadlines t).Nodup) := by
  constructor
  · intro bm url rid ts facts
    rfl
  · intro t
    unfold detect_deadlines
    split
    · simp
    · exact ⟨pairwise_sortedSet _, (pairwise_sortedSet _).imp (fun h => ne_of_lt h)⟩

/-- Claim C8 (counterexample input): one page whose only block reads
"witness ______" over an underscore run, with no drawn lines. -/
def c8Page : PageFacts :=
  { blocks := [(⟨0, 0, 100, 10⟩, str "witness ______")]
  , drawings := []
  , widgets := []
  , pageActions := false
  , pageJS := false
  , images := 0
  , textLen := 14 }

/-- Claim C8 (counterexample document). -/
def c8Facts : DocFacts :=
  { rawText := str "witness ______"
  , meta := []
  , pages := [c8Page]
  , docActions := false
  , docJS := false
  , digitalSigs := none
  , embeddedFiles := 0 }

/-- Claim C8, counterexample: on a page whose witness block shows an
underscore run but no drawn line, the signature-style layout heuristic
keyed on "witness" (underscore criterion included, as the claim states)
counts 1, while `_estimate_witness_signatures` counts 0 — the witness
estimator does not share the underscore-run criterion. -/
theorem witness_heuristic_not_identical_counterexample :
    estimateWitnessSignatures c8Facts (extractText c8Facts.rawText) = 0
    ∧ specWitnessLayoutEstimate c8Facts = 1
    ∧ estimateWitnessSignatures c8Facts (extractText c8Facts.rawText)
        ≠ specWitnessLayoutEstimate c8Facts := by
  refine ⟨by decide, by decide, by decide⟩

/-- Claim C8 as amended: the witness count uses the signature layout
heuristic keyed on "witness" with the same band geometry and
near-horizontal-line criterion but without the underscore-run criterion,
runs unconditionally (independent of widget detection), and is capped at
2 per page and 4 in total. -/
theorem witness_estimate_line_only_refinement (facts : DocFacts) (text : Str) :
    estimateWitnessSignatures facts text = layoutKeyedEstimate witnessWordRE false 4 facts
    ∧ (∀ p : PageFacts, witnessPageCount p ≤ 2)
    ∧ estimateWitnessSignatures facts text ≤ 4
    ∧ (analyze_signatures facts text).witness_signature_count
        = estimateWitnessSignatures facts text := by
  refine ⟨?_, ?_, ?_, rfl⟩
  · unfold estimateWitnessSignatures layoutKeyedEstimate
    have hpc : witnessPageCount = layoutKeyedCount witnessWordRE false := by
      funext p
      unfold witnessPageCount layoutKeyedCount
      simp
    rw [hpc]
  · intro p
    unfold witnessPageCount
    exact min_le_right _ _
  · unfold estimateWitnessSignatures
    exact min_le_right _ _

/-- Claim C2: the analysis of a decoded document is a pure function of
the document facts and registry — the generated analysis id and
wall-clock timestamp influence neither score nor the findings, so two
runs on identical inputs agree on `nigo_score`, `complexity_score`, and
the ordered findings list. -/
theorem analysis_deterministic_and_time_independent
    (bm : List (Str × List Str)) (url rid1 ts1 rid2 ts2 : Str) (facts : DocFacts) :
    (analyzeOne bm url rid1 ts1 facts).nigo_score
      = (analyzeOne bm url rid2 ts2 facts).nigo_score
    ∧ (analyzeOne bm url rid1 ts1 facts).complexity_score
      = (analyzeOne bm url rid2 ts2 facts).complexity_score
    ∧ (analyzeOne bm url rid1 ts1 facts).nigo_risks
      = (analyzeOne bm url rid2 ts2 facts).nigo_risks
    ∧ (analyzeOne bm url rid1 ts1 facts).deadlines
      = (analyzeOne bm url rid2 ts2 facts).deadlines :=
  ⟨rfl, rfl, rfl, rfl⟩

/-- Claim C9: a fatal decode failure yields exactly the bare error
record — status "error" with the message, locator and analysis id, and
no score, field, or finding keys. -/
theorem error_result_is_bare (bm : List (Str × List Str)) (item rid ts msg : Str) :
    analyzeTop bm item rid ts (.error msg)
      = .err ⟨item, str "error", msg, rid⟩
    ∧ statusOf (analyzeTop bm item rid ts (.error msg)) = str "error"
    ∧ errorOf (analyzeTop bm item rid ts (.error msg)) = some msg
    ∧ nigoScoreOf (analyzeTop bm item rid ts (.error msg)) = none
    ∧ complexityScoreOf (analyzeTop bm item rid ts (.error msg)) = none
    ∧ findingsOf (analyzeTop bm item rid ts (.error msg)) = none
    ∧ fieldCountOf (analyzeTop bm item rid ts (.error msg)) = none :=
  ⟨rfl, rfl, rfl, rfl, rfl, rfl, rfl⟩

/-- Claim C4: whenever the reverse brand index registers the host's root
domain to the resolved issuer, the override forces `mismatch = false`
and `confidence ≥ 75`, regardless of any penalties accumulated before. -/
theorem domain_root_override_forces_trust (url entity text : Str)
    (meta : List (Str × Str)) (bm : List (Str × List Str))
    (h : rootToBrand bm (hostRootOf (netlocOf url))
         = some (resolveIssuer entity text meta bm (hostRootOf (netlocOf url))).issuer) :
    (host_domain_info url entity text meta bm).mismatch = false
    ∧ 75 ≤ (host_domain_info url entity text meta bm).confidence := by
  simp only [host_domain_info, h, if_pos]
  exact ⟨by trivial, le_max_right _ _⟩

/-- Claim C4, witness: a Fidelity form served from `www.fidelity.com`
satisfies the override hypothesis, so the theorem yields trust. -/
theorem domain_root_override_forces_trust_witness :
    (rootToBrand builtinBrands (hostRootOf (netlocOf (str "https://www.fidelity.com/f.pdf")))
      = some (resolveIssuer (str "Fidelity Investments") (str "") [] builtinBrands
                (hostRootOf (netlocOf (str "https://www.fidelity.com/f.pdf")))).issuer)
    ∧ ((host_domain_info (str "https://www.fidelity.com/f.pdf") (str "Fidelity Investments")
          (str "") [] builtinBrands).mismatch = false
       ∧ 75 ≤ (host_domain_info (str "https://www.fidelity.com/f.pdf") (str "Fidelity Investments")
                 (str "") [] builtinBrands).confidence) :=
  ⟨by decide,
   domain_root_override_forces_trust (str "https://www.fidelity.com/f.pdf")
     (str "Fidelity Investments") (str "") [] builtinBrands (by decide)⟩

/-- Claim C5, counterexample: with the issuer resolved to the government
brand IRS and host `formsportal.example.com` (no brand hits in text or
metadata), the evaluator returns `mismatch = false` with confidence 10 —
there is no 55-point base, so the claimed `mismatch = true` with
confidence ≥ 65 fails. -/
theorem gov_issuer_scenario_counterexample :
    (host_domain_info (str "https://formsportal.example.com/form.pdf") (str "IRS")
       (str "") [] builtinBrands).issuer_guess = str "IRS"
    ∧ (host_domain_info (str "https://formsportal.example.com/form.pdf") (str "IRS")
         (str "") [] builtinBrands).mismatch = false
    ∧ (host_domain_info (str "https://formsportal.example.com/form.pdf") (str "IRS")
         (str "") [] builtinBrands).confidence = 10
    ∧ ¬((host_domain_info (str "https://formsportal.example.com/form.pdf") (str "IRS")
          (str "") [] builtinBrands).mismatch = true
        ∧ 65 ≤ (host_domain_info (str "https://formsportal.example.com/form.pdf") (str "IRS")
                  (str "") [] builtinBrands).confidence) := by
  refine ⟨by decide, by decide, by decide, by decide⟩

/-- Claim C5 as amended: when the issuer resolves to a government brand
hosted off `.gov` (and the root-domain override does not apply), the
confidence is the clamped heuristic sum plus the 10-point government
bonus, `mismatch` is true exactly when that confidence reaches 55, and a
true mismatch carries the off-domain government reason — there is no
55-point base term. -/
theorem gov_issuer_offsite_amended (url entity text : Str)
    (meta : List (Str × Str)) (bm : List (Str × List Str))
    (hgov : govOffTld (resolveIssuer entity text meta bm (hostRootOf (netlocOf url))).issuer
              (netlocOf url) = true)
    (hov : rootToBrand bm (hostRootOf (netlocOf url))
           ≠ some (resolveIssuer entity text meta bm (hostRootOf (netlocOf url))).issuer) :
    (host_domain_info url entity text meta bm).confidence
      = max 0 (min 100
          (hdHeurConf (netlocOf url) (hostRootOf (netlocOf url))
             (matchedDomains (netlocOf url) (hostRootOf (netlocOf url))
               (issuerDomainsOf bm (resolveIssuer entity text meta bm (hostRootOf (netlocOf url))).issuer))
             (issuerDomainsOf bm (resolveIssuer entity text meta bm (hostRootOf (netlocOf url))).issuer)
             (resolveIssuer entity text meta bm (hostRootOf (netlocOf url))).textHits
             (resolveIssuer entity text meta bm (hostRootOf (netlocOf url))).metaHits + 10))
    ∧ ((host_domain_info url entity text meta bm).mismatch = true
        ↔ 55 ≤ (host_domain_info url entity text meta bm).confidence)
    ∧ ((host_domain_info url entity text meta bm).mismatch = true
        → (host_domain_info url entity text meta bm).reason
          = str "Government issuer on non-.gov host.") := by
  simp only [host_domain_info, hgov, if_neg hov, if_true]
  refine ⟨by trivial, ?_, ?_⟩
  · by_cases h55 : 55 ≤ max 0 (min 100
        (hdHeurConf (netlocOf url) (hostRootOf (netlocOf url))
           (matchedDomains (netlocOf url) (hostRootOf (netlocOf url))
             (issuerDomainsOf bm (resolveIssuer entity text meta bm (hostRootOf (netlocOf url))).issuer))
           (issuerDomainsOf bm (resolveIssuer entity text meta bm (hostRootOf (netlocOf url))).issuer)
           (resolveIssuer entity text meta bm (hostRootOf (netlocOf url))).textHits
           (resolveIssuer entity text meta bm (hostRootOf (netlocOf url))).metaHits + 10)) <;>
      simp [h55]
  · intro hm
    by_cases h55 : 55 ≤ max 0 (min 100
        (hdHeurConf (netlocOf url) (hostRootOf (netlocOf url))
           (matchedDomains (netlocOf url) (hostRootOf (netlocOf url))
             (issuerDomainsOf bm (resolveIssuer entity text meta bm (hostRootOf (netlocOf url))).issuer))
           (issuerDomainsOf bm (resolveIssuer entity text meta bm (hostRootOf (netlocOf url))).issuer)
           (resolveIssuer entity text meta bm (hostRootOf (netlocOf url))).textHits
           (resolveIssuer entity text meta bm (hostRootOf (netlocOf url))).metaHits + 10))
    · simp only [if_pos h55]
      have hne : str "Government issuer on non-.gov host." ≠ ([] : Str) := by decide
      simp [hne]
    · rw [if_neg h55] at hm
      simp at hm

/-- Claim C5, witness for the amended statement: a custom registry maps
IRS to `irs-forms.com`; on host `irs-forms.com.example.net` the domain
match (+60) plus the government bonus (+10) reaches 70, so `mismatch` is
true with the government reason. -/
theorem gov_issuer_offsite_amended_witness :
    (govOffTld (resolveIssuer (str "IRS") (str "") []
        [(str "IRS", [str "irs-forms.com"])]
        (hostRootOf (netlocOf (str "https://irs-forms.com.example.net/f.pdf")))).issuer
      (netlocOf (str "https://irs-forms.com.example.net/f.pdf")) = true)
    ∧ (rootToBrand [(str "IRS", [str "irs-forms.com"])]
         (hostRootOf (netlocOf (str "https://irs-forms.com.example.net/f.pdf")))
       ≠ some (resolveIssuer (str "IRS") (str "") []
                 [(str "IRS", [str "irs-forms.com"])]
                 (hostRootOf (netlocOf (str "https://irs-forms.com.example.net/f.pdf")))).issuer)
    ∧ ((host_domain_info (str "https://irs-forms.com.example.net/f.pdf") (str "IRS") (str "")
          [] [(str "IRS", [str "irs-forms.com"])]).mismatch = true
        ↔ 55 ≤ (host_domain_info (str "https://irs-forms.com.example.net/f.pdf") (str "IRS")
                  (str "") [] [(str "IRS", [str "irs-forms.com"])]).confidence) :=
  ⟨by decide, by decide,
   (gov_issuer_offsite_amended (str "https://irs-forms.com.example.net/f.pdf") (str "IRS")
      (str "") [] [(str "IRS", [str "irs-forms.com"])] (by decide) (by decide)).2.1⟩

end FormsAnalyzer
